import Mathlib

/-!
Verification of the timeline interaction engine of `src/base.js`
(AvaLIBRAS authoring tool front-end controller).

The relevant JavaScript is shallowly embedded: JS numbers on the
interaction hot paths are modelled as exact rationals (`ℚ`); the special
values `NaN`/`±Infinity`/`undefined` are modelled explicitly (`JSNum`)
where the source inspects them (`formatTime`); nullable values become
`Option`; JS objects whose keys are diffed dynamically become
association lists; DOM elements are read-model records carrying exactly
the attributes the source reads back (`style.left`, `style.width`,
`data-*`).  Each definition cites the source lines it translates.
-/

/-! ### Drag/resize geometry (src/base.js:4546-4736, 8549-8630) -/

/-- `handleAdvancedMouseMove`, overlay `move` branch (src/base.js:4624):
`newPosition = Math.max(0, Math.min(100, initialLeft + deltaPercent))`. -/
def moveNewPosition (initialLeft deltaPercent : ℚ) : ℚ :=
  max 0 (min 100 (initialLeft + deltaPercent))

/-- `handleOverlayResize`, `resize-left` branch (src/base.js:4690-4694):
`deltaLeftPercent = (deltaPercent / 100) * 100`;
`newLeft = Math.max(0, Math.min(initialLeft + deltaLeftPercent, initialLeft + initialWidth - 1))`;
`newWidth = initialWidth - (newLeft - initialLeft)`.  Returns `(newLeft, newWidth)`. -/
def resizeLeftGeometry (initialLeft initialWidth deltaPercent : ℚ) : ℚ × ℚ :=
  let deltaLeftPercent := deltaPercent / 100 * 100
  let newLeft := max 0 (min (initialLeft + deltaLeftPercent) (initialLeft + initialWidth - 1))
  let newWidth := initialWidth - (newLeft - initialLeft)
  (newLeft, newWidth)

/-- `handleOverlayResize`, `resize-right` branch (src/base.js:4695-4698):
`newWidth = Math.max(1, Math.min(initialWidth + deltaPercent, 100 - initialLeft))`;
`newLeft` stays `initialLeft`.  Returns `(newLeft, newWidth)`. -/
def resizeRightGeometry (initialLeft initialWidth deltaPercent : ℚ) : ℚ × ℚ :=
  let newWidth := max 1 (min (initialWidth + deltaPercent) (100 - initialLeft))
  (initialLeft, newWidth)

/-- Direction argument of `resizeSelectedOverlay` (src/base.js:8549). -/
inductive ResizeDirection
  | left
  | right
deriving DecidableEq, Repr

/-- Keyboard resize path `resizeSelectedOverlay` (src/base.js:8562-8588), the
width computation: `step = isLargeStep ? 5 : 1`;
direction `'left'`:  `newWidth = Math.max(5, currentWidth - step)`;
otherwise:           `newWidth = Math.min(100 - currentPosition, currentWidth + step)`. -/
def resizeSelectedOverlayWidth (direction : ResizeDirection) (isLargeStep : Bool)
    (currentWidth currentPosition : ℚ) : ℚ :=
  let step : ℚ := if isLargeStep then 5 else 1
  match direction with
  | .left => max 5 (currentWidth - step)
  | .right => min (100 - currentPosition) (currentWidth + step)

/-! ### JS number semantics for the time formatters -/

/-- A JavaScript number as inspected by the time formatters: either a finite
value (modelled exactly as a rational) or one of the non-finite specials.
`undefined` fed to arithmetic coerces to `NaN`, so it is modelled as `nan`. -/
inductive JSNum
  | nan
  | posInf
  | negInf
  | fin (q : ℚ)
deriving DecidableEq, Repr

namespace JSNum

/-- JS truncation toward zero (the `%` operator's implied quotient). -/
def ratTrunc (q : ℚ) : ℤ :=
  if 0 ≤ q then ⌊q⌋ else ⌈q⌉

/-- JS division by a positive finite constant `c` (used as `seconds / 60`):
`NaN/c = NaN`, `±Infinity/c = ±Infinity`. -/
def divC (x : JSNum) (c : ℚ) : JSNum :=
  match x with
  | nan => nan
  | posInf => posInf
  | negInf => negInf
  | fin q => fin (q / c)

/-- JS remainder `x % c` for a positive finite constant `c`:
`NaN % c = NaN`, `±Infinity % c = NaN`; for finite `x` the result has the
sign of the dividend (quotient truncated toward zero). -/
def modC (x : JSNum) (c : ℚ) : JSNum :=
  match x with
  | fin q => fin (q - c * ratTrunc (q / c))
  | _ => nan

/-- `Math.floor`: identity on `NaN` and `±Infinity`. -/
def jsFloor (x : JSNum) : JSNum :=
  match x with
  | fin q => fin (⌊q⌋ : ℚ)
  | y => y

/-- JS subtraction (only the combinations reachable in `formatTime`
matter, but all are given, following IEEE-754 semantics on specials). -/
def jsSub (x y : JSNum) : JSNum :=
  match x, y with
  | nan, _ => nan
  | _, nan => nan
  | posInf, posInf => nan
  | posInf, _ => posInf
  | negInf, negInf => nan
  | negInf, _ => negInf
  | fin _, posInf => negInf
  | fin _, negInf => posInf
  | fin a, fin b => fin (a - b)

/-- JS multiplication by a positive finite constant. -/
def mulC (x : JSNum) (c : ℚ) : JSNum :=
  match x with
  | nan => nan
  | posInf => posInf
  | negInf => negInf
  | fin q => fin (q * c)

/-- JS falsiness of a number: `0` and `NaN` are falsy. -/
def falsy (x : JSNum) : Bool :=
  match x with
  | nan => true
  | fin q => q == 0
  | _ => false

/-- `isFinite`. -/
def isFin (x : JSNum) : Bool :=
  match x with
  | fin _ => true
  | _ => false

/-- The finite value (the formatters only read it behind finiteness guards). -/
def toRat (x : JSNum) : ℚ :=
  match x with
  | fin q => q
  | _ => 0

end JSNum

/-- Decimal string of an integer, as JS `String(i)` renders integer-valued
numbers. -/
def jsIntRepr (i : ℤ) : String :=
  if i < 0 then "-" ++ Nat.repr i.natAbs else Nat.repr i.toNat

/-- `String(x)` for the values reaching string conversion inside
`formatTime`: those are `Math.floor` results, hence integer-valued when
finite (so the finite case renders `⌊q⌋`, which there equals `q`). -/
def JSNum.toJSString (x : JSNum) : String :=
  match x with
  | .nan => "NaN"
  | .posInf => "Infinity"
  | .negInf => "-Infinity"
  | .fin q => jsIntRepr ⌊q⌋

/-- JS `s.padStart(n, c)`. -/
def jsPadStart (s : String) (n : ℕ) (c : Char) : String :=
  (List.replicate (n - s.length) c).asString ++ s

/-- Top-level `formatTime` (src/base.js:6938-6949):
`minutes = Math.floor(seconds / 60)`;
`remainingSeconds = seconds % 60`;
`baseTime = pad2(String(minutes)) ++ ":" ++ pad2(String(Math.floor(remainingSeconds)))`;
with milliseconds appended as
`pad3(String(Math.floor((remainingSeconds - Math.floor(remainingSeconds)) * 1000)))`.
There is no non-finite guard in this function. -/
def formatTime (seconds : JSNum) (includeMilliseconds : Bool) : String :=
  let minutes := (seconds.divC 60).jsFloor
  let remainingSeconds := seconds.modC 60
  let baseTime :=
    jsPadStart minutes.toJSString 2 '0' ++ ":" ++
      jsPadStart remainingSeconds.jsFloor.toJSString 2 '0'
  if includeMilliseconds then
    let milliseconds := ((remainingSeconds.jsSub remainingSeconds.jsFloor).mulC 1000).jsFloor
    baseTime ++ "." ++ jsPadStart milliseconds.toJSString 3 '0'
  else
    baseTime

namespace OverlayUtils

/-- `OverlayUtils.formatTime` (src/base.js:376-381):
`if (!seconds || !isFinite(seconds)) return '0:00';`
`mins = Math.floor(seconds / 60)`; `secs = Math.floor(seconds % 60)`;
returns `` `${mins}:${secs.toString().padStart(2, '0')}` `` (minutes
unpadded). -/
def formatTime (seconds : JSNum) : String :=
  if seconds.falsy || !seconds.isFin then "0:00"
  else
    let q := seconds.toRat
    let mins := ⌊q / 60⌋
    let secs := ⌊q - 60 * JSNum.ratTrunc (q / 60)⌋
    jsIntRepr mins ++ ":" ++ jsPadStart (jsIntRepr secs) 2 '0'

/-- `OverlayUtils.formatTimeWithMilliseconds` (src/base.js:383-389):
fallback `'0:00.000'`; minutes padded to 2 digits;
`ms = Math.floor((seconds % 1) * 1000)` padded to 3 digits. -/
def formatTimeWithMilliseconds (seconds : JSNum) : String :=
  if seconds.falsy || !seconds.isFin then "0:00.000"
  else
    let q := seconds.toRat
    let mins := ⌊q / 60⌋
    let secs := ⌊q - 60 * JSNum.ratTrunc (q / 60)⌋
    let ms := ⌊(q - 1 * JSNum.ratTrunc (q / 1)) * 1000⌋
    jsPadStart (jsIntRepr mins) 2 '0' ++ ":" ++ jsPadStart (jsIntRepr secs) 2 '0' ++ "." ++
      jsPadStart (jsIntRepr ms) 3 '0'

end OverlayUtils

/-- A string of shape `MM:SS` (two digits, colon, two digits), the shape the
top-level `formatTime` produces without milliseconds. -/
def isMMSS (s : String) : Bool :=
  match s.toList with
  | [m1, m2, c, s1, s2] => m1.isDigit && m2.isDigit && (c == ':') && s1.isDigit && s2.isDigit
  | _ => false

/-- A string of shape `MM:SS.mmm`. -/
def isMMSSmmm (s : String) : Bool :=
  match s.toList with
  | [m1, m2, c, s1, s2, d, x1, x2, x3] =>
      m1.isDigit && m2.isDigit && (c == ':') && s1.isDigit && s2.isDigit &&
        (d == '.') && x1.isDigit && x2.isDigit && x3.isDigit
  | _ => false

/-! ### Overlay Store and the derived project-overlays projection
(src/base.js:17-196) -/

/-- A record of the canonical Overlay Store (`OverlayState.overlays`,
src/base.js:17).  `label` is `none` when absent (JS `undefined`/missing);
`startCompat`/`endCompat` model the legacy `start`/`end` fields the drag
handlers merge in for backward compatibility (src/base.js:4649, 4723-4724);
they are write-only as far as the store and its sync are concerned. -/
structure Overlay where
  id : String
  label : Option String := none
  startTime : ℚ := 0
  duration : ℚ := 0
  pos : String := ""
  size : ℚ := 0
  opacity : ℚ := 0
  image : String := ""
  startCompat : Option ℚ := none
  endCompat : Option ℚ := none
deriving DecidableEq, Repr

/-- An entry of the derived projection `currentProject.overlays`
(the `overlayData` object literal of `syncWithProject`, src/base.js:145-154). -/
structure ProjectOverlay where
  id : String
  label : String
  start : ℚ
  duration : ℚ
  pos : String
  size : ℚ
  opacity : ℚ
  imageFile : String
deriving DecidableEq, Repr

/-- `overlayData` built from a store record (src/base.js:145-154); the label
defaults via JS `overlay.label || `Overlay ${overlay.id}``, so the empty
string is also replaced. -/
def overlayData (o : Overlay) : ProjectOverlay :=
  { id := o.id
    label := match o.label with
      | some l => if l = "" then "Overlay " ++ o.id else l
      | none => "Overlay " ++ o.id
    start := o.startTime
    duration := o.duration
    pos := o.pos
    size := o.size
    opacity := o.opacity
    imageFile := o.image }

/-- `OverlayState.videoState` (src/base.js:20-24). -/
structure VideoMirrorState where
  isReady : Bool
  duration : ℚ
  currentTime : ℚ
deriving DecidableEq, Repr

/-- The store together with the external projection it syncs into
(`currentProject.overlays`); the projection is modelled as always present
(the `!currentProject` early-out of `syncWithProject` is the degenerate
case where nothing is observable). -/
structure OverlayStoreState where
  overlays : List Overlay
  activeOverlay : Option Overlay := none
  videoState : VideoMirrorState := { isReady := false, duration := 0, currentTime := 0 }
  projectOverlays : List ProjectOverlay
deriving DecidableEq, Repr

/-- The walk of `syncWithProject` over the store's records
(`this.overlays.forEach`, src/base.js:143-164): `mapKeys` holds the keys
still present in `currentOverlaysMap`.  A record whose id is still mapped
overwrites the corresponding projection entry in place
(`Object.assign(projectOverlay, overlayData)`) and consumes the key
(`currentOverlaysMap.delete`); otherwise the fresh `overlayData` is pushed.
Returns the reconciled array and the unconsumed keys. -/
def syncLoop : List Overlay → List ProjectOverlay → List String →
    List ProjectOverlay × List String
  | [], proj, mapKeys => (proj, mapKeys)
  | o :: os, proj, mapKeys =>
      if mapKeys.contains o.id then
        syncLoop os (proj.map (fun p => if p.id == o.id then overlayData o else p))
          (mapKeys.erase o.id)
      else
        syncLoop os (proj ++ [overlayData o]) mapKeys

/-- `OverlayState.syncWithProject` (src/base.js:131-174): key the projection
by id, walk the store's records through `syncLoop`, then — only when some
keys were left unmatched — filter out the projection entries carrying a
removed id (src/base.js:166-170).  (The source's `Map` has unique keys; the
embedding agrees with it on projection arrays with duplicate-free ids,
which is what every reachable projection has.) -/
def syncWithProject (s : OverlayStoreState) : OverlayStoreState :=
  let mapKeys := s.projectOverlays.map (fun p => p.id)
  let res := syncLoop s.overlays s.projectOverlays mapKeys
  let removedIds := res.2
  { s with projectOverlays :=
      if removedIds.length > 0 then res.1.filter (fun p => !(removedIds.contains p.id))
      else res.1 }

/-- `OverlayState.addOverlay` (src/base.js:64-76): an id is generated only
when the given record's id is falsy (the empty string models the absent
id); the record is appended and the projection synced.  No event is
emitted. -/
def addOverlay (s : OverlayStoreState) (overlay : Overlay) (genId : String) : OverlayStoreState :=
  let o := if overlay.id = "" then { overlay with id := genId } else overlay
  syncWithProject { s with overlays := s.overlays ++ [o] }

/-- `OverlayState.removeOverlay` (src/base.js:78-82). No event is emitted. -/
def removeOverlay (s : OverlayStoreState) (idv : String) : OverlayStoreState :=
  syncWithProject { s with overlays := s.overlays.filter (fun o => !(o.id == idv)) }

/-- A partial update handed to `OverlayState.updateOverlay` (the `data`
object merged by `Object.assign`, src/base.js:89). A `none` field is
absent from the object. -/
structure OverlayPatch where
  label : Option (Option String) := none
  startTime : Option ℚ := none
  duration : Option ℚ := none
  pos : Option String := none
  size : Option ℚ := none
  opacity : Option ℚ := none
  image : Option String := none
  startCompat : Option ℚ := none
  endCompat : Option ℚ := none
deriving DecidableEq, Repr

/-- `Object.assign(overlay, data)` for the fields above; the id is not part
of an update payload. -/
def applyPatch (o : Overlay) (p : OverlayPatch) : Overlay :=
  { id := o.id
    label := p.label.getD o.label
    startTime := p.startTime.getD o.startTime
    duration := p.duration.getD o.duration
    pos := p.pos.getD o.pos
    size := p.size.getD o.size
    opacity := p.opacity.getD o.opacity
    image := p.image.getD o.image
    startCompat := match p.startCompat with
      | some v => some v
      | none => o.startCompat
    endCompat := match p.endCompat with
      | some v => some v
      | none => o.endCompat }

/-- Payload of the `overlayUpdated` event (src/base.js:103-108). -/
structure OverlayUpdatedEvent where
  id : String
  overlay : Overlay
  oldData : Overlay
  changes : OverlayPatch
deriving DecidableEq, Repr

/-- Update the first store record with the given id (`Array.prototype.find`
returns the first match, which `Object.assign` then mutates). -/
def updateFirstById : List Overlay → String → OverlayPatch → List Overlay
  | [], _, _ => []
  | o :: os, idv, p =>
      if o.id == idv then applyPatch o p :: os else o :: updateFirstById os idv p

/-- `OverlayState.updateOverlay` (src/base.js:84-112): merge into the first
matching record, sync the projection, and emit `overlayUpdated` with the
post-merge record, a pre-merge snapshot and the partial input; when no
record matches, log and do nothing (no event). -/
def updateOverlay (s : OverlayStoreState) (idv : String) (data : OverlayPatch) :
    OverlayStoreState × Option OverlayUpdatedEvent :=
  match s.overlays.find? (fun o => o.id == idv) with
  | some overlay =>
      (syncWithProject { s with overlays := updateFirstById s.overlays idv data },
       some { id := idv, overlay := applyPatch overlay data, oldData := overlay, changes := data })
  | none => (s, none)

/-- `OverlayState.clear` (src/base.js:185-196): empties the records and
resets `activeOverlay` and `videoState`; it does not call
`syncWithProject` and emits nothing, so `currentProject.overlays` is left
untouched. -/
def clearStore (s : OverlayStoreState) : OverlayStoreState :=
  { s with overlays := []
           activeOverlay := none
           videoState := { isReady := false, duration := 0, currentTime := 0 } }

/-- One call against the store API. -/
inductive StoreOp
  | add (overlay : Overlay) (genId : String)
  | remove (idv : String)
  | update (idv : String) (data : OverlayPatch)
deriving Repr

/-- Apply one call. -/
def applyOp (s : OverlayStoreState) : StoreOp → OverlayStoreState
  | .add o g => addOverlay s o g
  | .remove i => removeOverlay s i
  | .update i d => (updateOverlay s i d).1

/-- Run a call sequence left to right. -/
def runOps (s : OverlayStoreState) (ops : List StoreOp) : OverlayStoreState :=
  ops.foldl applyOp s

/-- The store before any project is populated. -/
def initialStoreState : OverlayStoreState :=
  { overlays := [], projectOverlays := [] }

/-- The id an `add` call will effectively store. -/
def effectiveId (overlay : Overlay) (genId : String) : String :=
  if overlay.id = "" then genId else overlay.id

/-- A call sequence is id-safe when every `add` brings an id not already
present in the store at that point (the generator's collision-resistant
tokens guarantee this; only a caller-supplied duplicate id violates it). -/
def safeOps : OverlayStoreState → List StoreOp → Bool
  | _, [] => true
  | s, op :: ops =>
      (match op with
       | .add o g => !((s.overlays.map (fun o' => o'.id)).contains (effectiveId o g))
       | _ => true) && safeOps (applyOp s op) ops

/-! ### Pointer interaction state and the drag write-through path
(src/base.js:4393-4522, 4546-4658, 4942-5017) -/

/-- The slice of `timelineState.dragState` the overlay interaction paths
read and write (src/base.js:4408-4424, 4497-4522). -/
structure DragState where
  isDragging : Bool := false
  elementAttached : Bool := false
  initialX : ℚ := 0
  initialLeft : ℚ := 0
  initialWidth : ℚ := 0
  interactionType : Option String := none
  resizeHandle : Option String := none
  isResizing : Bool := false
  isDraggingPlayhead : Bool := false
deriving DecidableEq, Repr

/-- The dragged `.overlay-segment` DOM element as a read model: its inline
style geometry and the `data-*` attributes the handlers read back. -/
structure OverlaySegment where
  id : String
  leftPercent : ℚ
  widthPercent : ℚ
  dataStart : ℚ
  dataDuration : ℚ
deriving DecidableEq, Repr

/-- One `mousemove` step of `handleAdvancedMouseMove` on an overlay segment
in `move` mode (src/base.js:4546-4658, the `overlay-segment` else-branch):
guards on `isDragging` and a positive track width, computes
`deltaPercent = deltaX / trackWidth * 100`, clamps the new left percent to
`[0, 100]`, moves the element inline, rewrites `data-start`, and commits
`startTime` (plus the legacy `start`) to the Overlay Store immediately via
`OverlayState.updateOverlay` — on every move, not only on release. -/
def overlayMoveMouseMove (duration trackWidth : ℚ) (drag : DragState)
    (elem : OverlaySegment) (store : OverlayStoreState) (clientX : ℚ) :
    OverlaySegment × OverlayStoreState :=
  if !drag.isDragging then (elem, store)
  else if trackWidth ≤ 0 then (elem, store)
  else
    let deltaX := clientX - drag.initialX
    let deltaPercent := deltaX / trackWidth * 100
    let newPosition := moveNewPosition drag.initialLeft deltaPercent
    let newTime := newPosition / 100 * duration
    ({ elem with leftPercent := newPosition, dataStart := newTime },
     (updateOverlay store elem.id
        { startTime := some newTime, startCompat := some newTime }).1)

/-- One `mousemove` step in a resize mode (`handleOverlayResize`,
src/base.js:4665-4736): recomputes the geometry through
`resizeLeftGeometry`/`resizeRightGeometry`, rewrites the element and its
`data-*`, and commits `startTime`/`duration` (plus legacy `start`/`end`) to
the store immediately. -/
def overlayResizeMouseMove (duration trackWidth : ℚ) (resizeType : String)
    (drag : DragState) (elem : OverlaySegment) (store : OverlayStoreState)
    (clientX : ℚ) : OverlaySegment × OverlayStoreState :=
  if !drag.isDragging then (elem, store)
  else if trackWidth ≤ 0 then (elem, store)
  else
    let deltaX := clientX - drag.initialX
    let deltaPercent := deltaX / trackWidth * 100
    let g :=
      if resizeType = "resize-left" then
        resizeLeftGeometry drag.initialLeft drag.initialWidth deltaPercent
      else
        resizeRightGeometry drag.initialLeft drag.initialWidth deltaPercent
    let newStartTime := g.1 / 100 * duration
    let newEndTime := (g.1 + g.2) / 100 * duration
    let newDuration := newEndTime - newStartTime
    ({ elem with leftPercent := g.1, widthPercent := g.2,
                 dataStart := newStartTime, dataDuration := newDuration },
     (updateOverlay store elem.id
        { startTime := some newStartTime, duration := some newDuration,
          startCompat := some newStartTime, endCompat := some newEndTime }).1)

/-- `resetDragState` (src/base.js:4497-4522): clears every interaction-local
field; it does not touch the Overlay Store. -/
def resetDragState (_drag : DragState) : DragState :=
  { isDragging := false, elementAttached := false, initialX := 0, initialLeft := 0,
    initialWidth := 0, interactionType := none, resizeHandle := none,
    isResizing := false, isDraggingPlayhead := false }

/-- `endCurrentInteraction` (src/base.js:4457-4494), the path by which an
in-progress overlay interaction is abandoned without a `mouseup` commit:
strips the visual classes and indicators and resets the drag state.  The
Overlay Store is passed through untouched — the source contains no code
that restores the pre-interaction store record. -/
def endCurrentInteraction (drag : DragState) (store : OverlayStoreState) :
    DragState × OverlayStoreState :=
  if !drag.isDragging then (drag, store)
  else (resetDragState drag, store)

/-- `handleAdvancedMouseUp` on an overlay segment (src/base.js:4942-5017):
reads the element's final `data-start` and issues one last authoritative
`updateOverlay` when the record exists, then clears the drag flags. -/
def overlayMouseUp (drag : DragState) (elem : OverlaySegment)
    (store : OverlayStoreState) : DragState × OverlayStoreState :=
  if !drag.isDragging then (drag, store)
  else
    let finalStartTime := elem.dataStart
    let store' :=
      match store.overlays.find? (fun o => o.id == elem.id) with
      | some _ => (updateOverlay store elem.id
          { startTime := some finalStartTime, startCompat := some finalStartTime }).1
      | none => store
    ({ drag with isDragging := false, elementAttached := false }, store')

/-! ### Selection/trim controller (src/base.js:1844-1868, 2168-2192, 3101-3166) -/

/-- The `VideoEditor` fields involved in marking a selection end and in
validating it before a cut.  `startTime`/`endTime` are `null`-able
(`Option`); `videoDuration` mirrors `videoPlayer.duration`. -/
structure SelectionState where
  isSelectionModeActive : Bool
  startTime : Option ℚ
  endTime : Option ℚ
  videoDuration : ℚ
deriving DecidableEq, Repr

/-- `VideoEditor.markSelectionEnd` (src/base.js:1844-1868): ignored unless
selection mode is active and a start is marked; the click position is
converted to a time and the end is set to
`Math.max(this.startTime, clickTime)` (the end can never precede the
start). -/
def markSelectionEnd (st : SelectionState) (clientX rectLeft rectWidth : ℚ) :
    SelectionState :=
  if !st.isSelectionModeActive then st
  else
    match st.startTime with
    | none => st
    | some start =>
        let x := clientX - rectLeft
        let percentage := x / rectWidth
        let clickTime := percentage * st.videoDuration
        { st with endTime := some (max start clickTime) }

/-- `VideoEditor.validateSelection` (src/base.js:2168-2192): both bounds
set, `startTime < endTime`, bounds within `[0, duration]`, and at least
0.5 s selected; each failing check notifies and returns `false`. -/
def validateSelection (st : SelectionState) : Bool :=
  match st.startTime, st.endTime with
  | some s, some e =>
      if s ≥ e then false
      else if s < 0 || e > st.videoDuration then false
      else if e - s < 1/2 then false
      else true
  | _, _ => false

/-- The request issued to the external transcoding collaborator
(`window.electronAPI.trimVideo`, src/base.js:3142-3146). -/
structure TrimRequest where
  inputPath : String
  startTime : ℚ
  endTime : ℚ
deriving DecidableEq, Repr

/-- `VideoEditor.cut` (src/base.js:3101-3166) up to the single external
trim call: aborts when `validateSelection` fails, aborts (with a
notification) when no input path can be resolved for the current video,
and otherwise issues exactly one `trimVideo` request carrying the
selection bounds. -/
def cut (st : SelectionState) (inputPath : Option String) : Option TrimRequest :=
  if !(validateSelection st) then none
  else
    match inputPath with
    | none => none
    | some p =>
        some { inputPath := p,
               startTime := st.startTime.getD 0,
               endTime := st.endTime.getD 0 }

/-! ### Validated overlay selection and its three signals
(src/base.js:4881-4939) -/

/-- An attached `.overlay-segment` element with its two selection classes. -/
structure SelSegment where
  id : String
  selected : Bool
  keyboardActive : Bool
deriving DecidableEq, Repr

/-- The document's overlay segments (in document order, as `querySelector`
scans them) together with `timelineState.selectedOverlay`; the latter is a
reference modelled by id, `none` when cleared, and considered attached
exactly when an element with that id is in the document. -/
structure SelectionSignals where
  doc : List SelSegment
  selectedOverlay : Option String
deriving DecidableEq, Repr

/-- `syncSelectedOverlayStates` (src/base.js:4914-4939): with `null`, clear
the in-memory reference and strip `selected`/`keyboard-active` from every
segment; with an element, set the reference, add both classes to it and
strip them from every other segment. -/
def syncSelectedOverlayStates (st : SelectionSignals) (overlayElement : Option String) :
    SelectionSignals :=
  match overlayElement with
  | none =>
      { doc := st.doc.map (fun e => { e with selected := false, keyboardActive := false }),
        selectedOverlay := none }
  | some x =>
      { doc := st.doc.map (fun e =>
          if e.id == x then { e with selected := true, keyboardActive := true }
          else { e with selected := false, keyboardActive := false }),
        selectedOverlay := some x }

/-- Fallback chain of `getValidatedSelectedOverlay` (src/base.js:4887-4907):
first `.overlay-segment.selected` match (resynchronising the in-memory
reference), else first `.overlay-segment.keyboard-active` match (adding
`selected` to it and resynchronising), else `null`. -/
def getValidatedFallback (st : SelectionSignals) : Option String × SelectionSignals :=
  match st.doc.find? (fun e => e.selected) with
  | some e => (some e.id, { st with selectedOverlay := some e.id })
  | none =>
      match st.doc.find? (fun e => e.keyboardActive) with
      | some e =>
          (some e.id,
           { doc := st.doc.map (fun x => if x.id == e.id then { x with selected := true } else x),
             selectedOverlay := some e.id })
      | none => (none, st)

/-- `getValidatedSelectedOverlay` (src/base.js:4881-4908): the in-memory
reference wins when it is still attached to the document; otherwise the
class-based fallbacks run. -/
def getValidatedSelectedOverlay (st : SelectionSignals) : Option String × SelectionSignals :=
  match st.selectedOverlay with
  | some i =>
      if st.doc.any (fun e => e.id == i) then (some i, st)
      else getValidatedFallback st
  | none => getValidatedFallback st

/-! ### Event emission with per-listener exception isolation
(src/base.js:49-61) -/

/-- A subscriber callback: it either returns or throws (the thrown value
rendered as a message string). -/
def Listener (α : Type) : Type := α → Except String Unit

/-- `OverlayState.emit` (src/base.js:49-61): iterate the registered
callbacks in order; each call is wrapped in `try/catch`, a caught error is
logged (`console.error`) and iteration continues.  The returned list is
the log: one slot per callback, `some msg` when that callback threw. -/
def emitRun {α : Type} (listeners : List (Listener α)) (data : α) : List (Option String) :=
  match listeners with
  | [] => []
  | f :: rest =>
      (match f data with
       | .ok _ => none
       | .error e => some e) :: emitRun rest data

/-- The store-level view of `emit`: the emission only reads
`eventListeners`; `overlays`, `activeOverlay` and `videoState` are not
touched by the loop. -/
def storeEmit {α : Type} (s : OverlayStoreState) (listeners : List (Listener α))
    (data : α) : OverlayStoreState × List (Option String) :=
  (s, emitRun listeners data)

/-! ### Visual State Manager (src/base.js:427-860) -/

/-- A primitive value held in a visual-state section (the sections store
numbers, strings and booleans; `NaN` never enters them on the modelled
paths, so strict JS equality coincides with structural equality). -/
inductive JSVal
  | num (q : ℚ)
  | str (s : String)
  | bool (b : Bool)
deriving DecidableEq, Repr

/-- A JS object as a key-ordered association list (keys unique, as in any
object literal). -/
abbrev JSObj : Type := List (String × JSVal)

/-- Property lookup `o[k]` (`none` models `undefined`). -/
def objGet (o : JSObj) (k : String) : Option JSVal :=
  (o.find? (fun kv => kv.1 == k)).map (fun kv => kv.2)

/-- Property write `o[k] = v`. -/
def objSet (o : JSObj) (k : String) (v : JSVal) : JSObj :=
  if (o.find? (fun kv => kv.1 == k)).isSome then
    o.map (fun kv => if kv.1 == k then (k, v) else kv)
  else o ++ [(k, v)]

/-- `Object.assign(current, incoming)`. -/
def objAssign (current incoming : JSObj) : JSObj :=
  incoming.foldl (fun acc kv => objSet acc kv.1 kv.2) current

/-- `VisualStateManager.hasObjectChanged` (src/base.js:752-762): some key of
the incoming object maps to a value strictly different from the current
one (a key missing from `current` reads as `undefined` and so counts as
changed). -/
def hasObjectChanged (current incoming : JSObj) : Bool :=
  incoming.any (fun kv => !(objGet current kv.1 == some kv.2))

/-- Per-id visual-state map (`state.markers` / `state.overlays`,
src/base.js:465-466), an insertion-ordered `Map` of objects. -/
abbrev VisMap : Type := List (String × JSObj)

/-- `Map.prototype.set`-style write used by `updateState`. -/
def mapSet (m : VisMap) (k : String) (v : JSObj) : VisMap :=
  if (m.find? (fun kv => kv.1 == k)).isSome then
    m.map (fun kv => if kv.1 == k then (k, v) else kv)
  else m ++ [(k, v)]

/-- `Map.prototype.get`. -/
def mapGet (m : VisMap) (k : String) : Option JSObj :=
  (m.find? (fun kv => kv.1 == k)).map (fun kv => kv.2)

/-- The `VisualStateManager.state` slice the update pipeline touches
(src/base.js:427-508): the five object sections, the two per-id maps, the
dirty flags, the performance counters, the batch flag and the re-entrancy
guard `_isApplyingState`. -/
structure VSMState where
  playhead : JSObj
  progress : JSObj
  selection : JSObj
  timeline : JSObj
  body : JSObj
  markers : VisMap
  overlays : VisMap
  dirtyPlayhead : Bool
  dirtyProgress : Bool
  dirtySelection : Bool
  dirtyTimeline : Bool
  dirtyBody : Bool
  dirtyMarkers : Bool
  dirtyOverlays : Bool
  batchUpdatePending : Bool
  updateCount : ℕ
  skippedUpdates : ℕ
  isApplyingState : Bool
deriving DecidableEq, Repr

/-- A `setState` payload: each top-level section is present or absent
(src/base.js:694-749 checks presence with `if (updates.x)`). -/
structure VSMUpdate where
  playhead : Option JSObj := none
  progress : Option JSObj := none
  selection : Option JSObj := none
  timeline : Option JSObj := none
  body : Option JSObj := none
  markers : Option VisMap := none
  overlays : Option VisMap := none
deriving DecidableEq, Repr

/-- `VisualStateManager.detectChanges` (src/base.js:694-749): each present
object section is diffed via `hasObjectChanged` and its dirty flag
assigned the diff result; a present `markers` or `overlays` map sets its
dirty flag — and the overall change flag — unconditionally, with no diff.
Returns the state (with reassigned dirty flags) and `hasChanges`. -/
def detectChanges (s : VSMState) (u : VSMUpdate) : VSMState × Bool :=
  let cPlayhead := match u.playhead with
    | some inc => hasObjectChanged s.playhead inc
    | none => false
  let cProgress := match u.progress with
    | some inc => hasObjectChanged s.progress inc
    | none => false
  let cSelection := match u.selection with
    | some inc => hasObjectChanged s.selection inc
    | none => false
  let cTimeline := match u.timeline with
    | some inc => hasObjectChanged s.timeline inc
    | none => false
  let cBody := match u.body with
    | some inc => hasObjectChanged s.body inc
    | none => false
  let s1 := { s with
    dirtyPlayhead := if u.playhead.isSome then cPlayhead else s.dirtyPlayhead
    dirtyProgress := if u.progress.isSome then cProgress else s.dirtyProgress
    dirtySelection := if u.selection.isSome then cSelection else s.dirtySelection
    dirtyTimeline := if u.timeline.isSome then cTimeline else s.dirtyTimeline
    dirtyBody := if u.body.isSome then cBody else s.dirtyBody
    dirtyMarkers := if u.markers.isSome then true else s.dirtyMarkers
    dirtyOverlays := if u.overlays.isSome then true else s.dirtyOverlays }
  (s1, cPlayhead || cProgress || cSelection || cTimeline || cBody ||
       u.markers.isSome || u.overlays.isSome)

/-- Merge step of `updateState` for the `playhead` section
(src/base.js:789-791): `Object.assign` when present. -/
def updateStatePlayhead (s : VSMState) (u : VSMUpdate) : VSMState :=
  match u.playhead with
  | some inc => { s with playhead := objAssign s.playhead inc }
  | none => s

/-- Merge step for `progress` (src/base.js:792-794). -/
def updateStateProgress (s : VSMState) (u : VSMUpdate) : VSMState :=
  match u.progress with
  | some inc => { s with progress := objAssign s.progress inc }
  | none => s

/-- Merge step for `selection` (src/base.js:795-797). -/
def updateStateSelection (s : VSMState) (u : VSMUpdate) : VSMState :=
  match u.selection with
  | some inc => { s with selection := objAssign s.selection inc }
  | none => s

/-- Merge step for `timeline` (src/base.js:798-800). -/
def updateStateTimeline (s : VSMState) (u : VSMUpdate) : VSMState :=
  match u.timeline with
  | some inc => { s with timeline := objAssign s.timeline inc }
  | none => s

/-- Merge step for `body` (src/base.js:801-803). -/
def updateStateBody (s : VSMState) (u : VSMUpdate) : VSMState :=
  match u.body with
  | some inc => { s with body := objAssign s.body inc }
  | none => s

/-- Merge step for the `markers` map (src/base.js:804-808): each entry id
is set to `{ ...current, ...data }`. -/
def updateStateMarkers (s : VSMState) (u : VSMUpdate) : VSMState :=
  match u.markers with
  | some entries =>
      let merged := entries.foldl
        (fun m kv => mapSet m kv.1 (objAssign ((mapGet m kv.1).getD []) kv.2)) s.markers
      { s with markers := merged }
  | none => s

/-- Merge step for the `overlays` map (src/base.js:809-813). -/
def updateStateOverlays (s : VSMState) (u : VSMUpdate) : VSMState :=
  match u.overlays with
  | some entries =>
      let merged := entries.foldl
        (fun m kv => mapSet m kv.1 (objAssign ((mapGet m kv.1).getD []) kv.2)) s.overlays
      { s with overlays := merged }
  | none => s

/-- `VisualStateManager.updateState` (src/base.js:788-814): the seven merge
steps run in source order. -/
def updateState (s : VSMState) (u : VSMUpdate) : VSMState :=
  updateStateOverlays
    (updateStateMarkers
      (updateStateBody
        (updateStateTimeline
          (updateStateSelection
            (updateStateProgress
              (updateStatePlayhead s u) u) u) u) u) u) u

/-- The seven dirty-checked sections, in the order `applyState` visits them
(src/base.js:832-852). -/
inductive SectionTag
  | playhead
  | progress
  | selection
  | timeline
  | body
  | markers
  | overlays
deriving DecidableEq, Repr

/-- Dirty flag of a section. -/
def dirtyOf (s : VSMState) : SectionTag → Bool
  | .playhead => s.dirtyPlayhead
  | .progress => s.dirtyProgress
  | .selection => s.dirtySelection
  | .timeline => s.dirtyTimeline
  | .body => s.dirtyBody
  | .markers => s.dirtyMarkers
  | .overlays => s.dirtyOverlays

/-- Traversal order of `applyState`. -/
def applyOrder : List SectionTag :=
  [.playhead, .progress, .selection, .timeline, .body, .markers, .overlays]

/-- `resetDirtyFlags` (src/base.js:781-785). -/
def resetDirtyFlags (s : VSMState) : VSMState :=
  { s with dirtyPlayhead := false, dirtyProgress := false, dirtySelection := false,
           dirtyTimeline := false, dirtyBody := false, dirtyMarkers := false,
           dirtyOverlays := false }

/-- `VisualStateManager.applyState` (src/base.js:817-860).  The per-section
apply functions only write to the DOM, so the state-relevant behaviour is:
bail out if an application is already in progress; otherwise set the
guard, bump the performance counters, run the dirty sections' apply steps
in order — `stepRaises` says which step, if reached, throws — and reset
the dirty flags only when no step threw (the reset sits inside the `try`);
the `finally` clause clears the guard on both exits.  Returns the state
and whether an exception propagated. -/
def applyState (s : VSMState) (stepRaises : SectionTag → Bool) : VSMState × Bool :=
  if s.isApplyingState then (s, false)
  else
    let s1 := { s with isApplyingState := true,
                       updateCount := s.updateCount + 1 }
    let threw := applyOrder.any (fun t => dirtyOf s1 t && stepRaises t)
    let s2 := if threw then s1 else resetDirtyFlags s1
    ({ s2 with isApplyingState := false }, threw)

/-- `scheduleBatchUpdate` (src/base.js:765-778): idempotently flag a
pending animation-frame application (the frame callback itself runs
`applyState` later and is modelled by a separate `applyState` call). -/
def scheduleBatchUpdate (s : VSMState) : VSMState :=
  if s.batchUpdatePending then s else { s with batchUpdatePending := true }

/-- `VisualStateManager.setState` (src/base.js:663-691): a call arriving
while `_isApplyingState` is set is logged and dropped before any
bookkeeping is touched; otherwise `detectChanges` runs, a no-change update
bumps `skippedUpdates` and returns without scheduling anything, and a real
change is merged and either batched or applied synchronously.  Returns
the state and whether an exception propagated out of the synchronous
apply. -/
def setState (s : VSMState) (u : VSMUpdate) (batch : Bool)
    (stepRaises : SectionTag → Bool) : VSMState × Bool :=
  if s.isApplyingState then (s, false)
  else
    let d := detectChanges s u
    if !d.2 then ({ d.1 with skippedUpdates := d.1.skippedUpdates + 1 }, false)
    else
      let s2 := updateState d.1 u
      if batch then (scheduleBatchUpdate s2, false)
      else applyState s2 stepRaises

/-- No apply step raises (the normal regime). -/
def noRaise : SectionTag → Bool := fun _ => false

/-- `VisualStateManager.state` as initialised at src/base.js:429-507
(the fields of the five object sections, empty maps, clean flags and
counters). -/
def vsmInitialState : VSMState :=
  { playhead := [("position", JSVal.num 0), ("display", JSVal.str "block"),
                 ("isDragging", JSVal.bool false), ("isHidden", JSVal.bool false),
                 ("cursor", JSVal.str "grab")]
    progress := [("width", JSVal.num 0), ("display", JSVal.str "block"),
                 ("isHidden", JSVal.bool false)]
    selection := [("left", JSVal.num 0), ("width", JSVal.num 0),
                  ("display", JSVal.str "none"), ("isActive", JSVal.bool false),
                  ("isSelectionMode", JSVal.bool false), ("isMoving", JSVal.bool false),
                  ("startHandleVisible", JSVal.bool false), ("endHandleVisible", JSVal.bool false)]
    timeline := [("cursor", JSVal.str "default"), ("isSelecting", JSVal.bool false)]
    body := [("cursor", JSVal.str "default")]
    markers := []
    overlays := []
    dirtyPlayhead := false
    dirtyProgress := false
    dirtySelection := false
    dirtyTimeline := false
    dirtyBody := false
    dirtyMarkers := false
    dirtyOverlays := false
    batchUpdatePending := false
    updateCount := 0
    skippedUpdates := 0
    isApplyingState := false }

/-- The per-entry update `syncWithProject` performs on a projection entry:
replace it with the `overlayData` of the first store record carrying its
id, when one exists. -/
def syncUpdate (os : List Overlay) (p : ProjectOverlay) : ProjectOverlay :=
  match os.find? (fun o => o.id == p.id) with
  | some o => overlayData o
  | none => p

/-! ## Theorems -/

theorem resizeLeftGeometry_eq (L W d : ℚ) :
    resizeLeftGeometry L W d =
      (max 0 (min (L + d / 100 * 100) (L + W - 1)),
       W - (max 0 (min (L + d / 100 * 100) (L + W - 1)) - L)) := rfl

theorem resizeRightGeometry_eq (L W d : ℚ) :
    resizeRightGeometry L W d = (L, max 1 (min (W + d) (100 - L))) := rfl

/-- Claim C1 (counterexample): the pointer `move` path clamps the new left
percent to `[0, 100]`, not to `[0, 100 - width]`.  For a segment of width
10% starting at 50%, a rightward delta of 60% yields a left percent of
100%, which is outside `[0, 100 - 10]`. -/
theorem move_clamp_ignores_width_cex :
    moveNewPosition 50 60 = 100 ∧ ¬ moveNewPosition 50 60 ≤ 100 - 10 := by
  constructor
  · rw [moveNewPosition]
    rw [min_eq_left (by norm_num), max_eq_right (by norm_num)]
  · rw [moveNewPosition]
    rw [min_eq_left (by norm_num), max_eq_right (by norm_num)]
    norm_num

/-- Claim C1 (amended): for every pointer delta, the `move` path keeps the
left percent within `[0, 100]` (the full track, not `[0, 100 - width]`);
for a segment with sane initial geometry (`left ≥ 0`, `width ≥ 1%`,
`left + width ≤ 100`), pointer `resize-left` and `resize-right` keep the
width at least 1% and both bounds within `[0, 100]`; the keyboard resize
path floors the width at 5% when shrinking (direction `left`) — hence
also never below 1% — and, when growing (direction `right`), caps it so
the right edge cannot pass 100%, but applies no minimum-width floor. -/
theorem drag_resize_geometry_clamping
    (initialLeft initialWidth deltaPercent w p : ℚ) (b : Bool)
    (hL : 0 ≤ initialLeft) (hW : 1 ≤ initialWidth)
    (hLW : initialLeft + initialWidth ≤ 100) :
    (0 ≤ moveNewPosition initialLeft deltaPercent ∧
      moveNewPosition initialLeft deltaPercent ≤ 100) ∧
    (1 ≤ (resizeLeftGeometry initialLeft initialWidth deltaPercent).2 ∧
      0 ≤ (resizeLeftGeometry initialLeft initialWidth deltaPercent).1 ∧
      (resizeLeftGeometry initialLeft initialWidth deltaPercent).1 +
        (resizeLeftGeometry initialLeft initialWidth deltaPercent).2 ≤ 100) ∧
    (1 ≤ (resizeRightGeometry initialLeft initialWidth deltaPercent).2 ∧
      0 ≤ (resizeRightGeometry initialLeft initialWidth deltaPercent).1 ∧
      (resizeRightGeometry initialLeft initialWidth deltaPercent).1 +
        (resizeRightGeometry initialLeft initialWidth deltaPercent).2 ≤ 100) ∧
    5 ≤ resizeSelectedOverlayWidth ResizeDirection.left b w p ∧
    resizeSelectedOverlayWidth ResizeDirection.right b w p ≤ 100 - p := by
  have hmaxL : max 0 (min (initialLeft + deltaPercent / 100 * 100)
      (initialLeft + initialWidth - 1)) ≤ initialLeft + initialWidth - 1 :=
    max_le (by linarith) (min_le_right _ _)
  have hmax0 : (0 : ℚ) ≤ max 0 (min (initialLeft + deltaPercent / 100 * 100)
      (initialLeft + initialWidth - 1)) := le_max_left _ _
  refine ⟨⟨?_, ?_⟩, ⟨?_, ?_, ?_⟩, ⟨?_, ?_, ?_⟩, ?_, ?_⟩
  · rw [moveNewPosition]
    exact le_max_left _ _
  · rw [moveNewPosition]
    exact max_le (by norm_num) (min_le_left _ _)
  · rw [resizeLeftGeometry_eq]
    dsimp only
    linarith
  · rw [resizeLeftGeometry_eq]
    dsimp only
    exact hmax0
  · rw [resizeLeftGeometry_eq]
    dsimp only
    linarith
  · rw [resizeRightGeometry_eq]
    dsimp only
    exact le_max_left _ _
  · rw [resizeRightGeometry_eq]
    dsimp only
    exact hL
  · rw [resizeRightGeometry_eq]
    dsimp only
    refine le_trans (add_le_add_left (max_le (by linarith) (min_le_right _ _)) initialLeft) ?_
    linarith
  · simp only [resizeSelectedOverlayWidth]
    exact le_max_left _ _
  · simp only [resizeSelectedOverlayWidth]
    exact min_le_left _ _

/-- Instantiation of `drag_resize_geometry_clamping` at left 10%, width
20%, delta 5%, keyboard width 10% at position 10%. -/
theorem drag_resize_geometry_clamping_witness :
    (0 ≤ moveNewPosition 10 5 ∧ moveNewPosition 10 5 ≤ 100) ∧
    (1 ≤ (resizeLeftGeometry 10 20 5).2 ∧ 0 ≤ (resizeLeftGeometry 10 20 5).1 ∧
      (resizeLeftGeometry 10 20 5).1 + (resizeLeftGeometry 10 20 5).2 ≤ 100) ∧
    (1 ≤ (resizeRightGeometry 10 20 5).2 ∧ 0 ≤ (resizeRightGeometry 10 20 5).1 ∧
      (resizeRightGeometry 10 20 5).1 + (resizeRightGeometry 10 20 5).2 ≤ 100) ∧
    5 ≤ resizeSelectedOverlayWidth ResizeDirection.left false 10 10 ∧
    resizeSelectedOverlayWidth ResizeDirection.right false 10 10 ≤ 100 - 10 :=
  drag_resize_geometry_clamping 10 20 5 10 10 false (by norm_num) (by norm_num) (by norm_num)

/-- Claim C5: `markSelectionEnd` sets `endTime = max(startTime, clickTime)`,
so a completed selection always satisfies `startTime ≤ endTime`; and `cut`
issues a trim request only when `validateSelection` passes — both bounds
set, `start < end`, both bounds within `[0, videoDuration]`, and at least
0.5 s selected — carrying exactly those bounds; when validation fails no
request is issued. -/
theorem selection_ordering_and_trim_gating
    (st : SelectionState) (clientX rectLeft rectWidth a : ℚ)
    (p : Option String) (r : TrimRequest)
    (hact : st.isSelectionModeActive = true) (hstart : st.startTime = some a) :
    (∃ e, (markSelectionEnd st clientX rectLeft rectWidth).endTime = some e ∧ a ≤ e) ∧
    (cut st p = some r →
      validateSelection st = true ∧
      st.startTime = some r.startTime ∧ st.endTime = some r.endTime ∧
      r.startTime < r.endTime ∧ 0 ≤ r.startTime ∧ r.endTime ≤ st.videoDuration ∧
      1/2 ≤ r.endTime - r.startTime) ∧
    (validateSelection st = false → cut st p = none) := by
  refine ⟨?_, ?_, ?_⟩
  · rw [markSelectionEnd, hact, hstart]
    exact ⟨max a ((clientX - rectLeft) / rectWidth * st.videoDuration), rfl, le_max_left _ _⟩
  · intro hcut
    rw [cut.eq_def] at hcut
    by_cases hval : validateSelection st = true
    · refine ⟨hval, ?_⟩
      simp only [hval, Bool.not_true] at hcut
      cases p with
      | none => simp at hcut
      | some path =>
        simp only [Bool.false_eq_true, if_false, Option.some.injEq] at hcut
        match hs : st.startTime, he : st.endTime with
        | none, _ =>
          rw [validateSelection.eq_def, hs] at hval
          simp at hval
        | some s, none =>
          rw [validateSelection.eq_def, hs, he] at hval
          simp at hval
        | some s, some e =>
          rw [validateSelection.eq_def, hs, he] at hval
          simp only [] at hval
          split_ifs at hval with h1 h2 h3
          subst hcut
          simp only [Bool.or_eq_true, decide_eq_true_eq, not_or, not_lt] at h2
          rw [hs, he]
          simp only [Option.getD_some]
          exact ⟨trivial, trivial, lt_of_not_ge h1, h2.1, h2.2, not_lt.mp h3⟩
    · have hval' : validateSelection st = false := by
        revert hval
        cases validateSelection st
        · intro _
          rfl
        · intro hv
          exact absurd rfl hv
      rw [hval'] at hcut
      simp at hcut
  · intro hval
    rw [cut.eq_def, hval]
    simp

/-- Instantiation of `selection_ordering_and_trim_gating`: a 100 s video
with start marked at 20 s, end clicked at 50 s. -/
theorem selection_ordering_and_trim_gating_witness :
    ∃ e, (markSelectionEnd
      { isSelectionModeActive := true, startTime := some 20, endTime := some 50,
        videoDuration := 100 } 50 0 100).endTime = some e ∧ (20 : ℚ) ≤ e :=
  (selection_ordering_and_trim_gating
    { isSelectionModeActive := true, startTime := some 20, endTime := some 50,
      videoDuration := 100 } 50 0 100 20 (some "video.mp4")
    { inputPath := "video.mp4", startTime := 20, endTime := 50 } rfl rfl).1

/-- Claim C7: after `syncSelectedOverlayStates(X)` for an attached overlay
segment `X`, `getValidatedSelectedOverlay` returns `X` without having to
resynchronise anything, and no other segment retains the `selected` or
`keyboard-active` marker; with `null` all three signals are cleared and
the lookup returns `null`. -/
theorem selection_sync_round_trip (st : SelectionSignals) (x : String)
    (hx : x ∈ st.doc.map (fun e => e.id)) :
    (getValidatedSelectedOverlay (syncSelectedOverlayStates st (some x))).1 = some x ∧
    (getValidatedSelectedOverlay (syncSelectedOverlayStates st (some x))).2 =
      syncSelectedOverlayStates st (some x) ∧
    (∀ e ∈ (syncSelectedOverlayStates st (some x)).doc,
      e.id ≠ x → e.selected = false ∧ e.keyboardActive = false) ∧
    (∀ st2 : SelectionSignals,
      (getValidatedSelectedOverlay (syncSelectedOverlayStates st2 none)).1 = none ∧
      ∀ e ∈ (syncSelectedOverlayStates st2 none).doc,
        e.selected = false ∧ e.keyboardActive = false) := by
  have hany : ((syncSelectedOverlayStates st (some x)).doc.any (fun e => e.id == x)) = true := by
    simp only [syncSelectedOverlayStates, List.any_map, List.any_eq_true]
    rcases List.mem_map.mp hx with ⟨e0, he0, hid⟩
    refine ⟨e0, he0, ?_⟩
    simp only [Function.comp]
    rw [if_pos (by simp [hid])]
    simp [hid]
  refine ⟨?_, ?_, ?_, ?_⟩
  · rw [getValidatedSelectedOverlay.eq_def]
    simp only [syncSelectedOverlayStates] at hany ⊢
    rw [hany]
    simp
  · rw [getValidatedSelectedOverlay.eq_def]
    simp only [syncSelectedOverlayStates] at hany ⊢
    rw [hany]
    simp
  · intro e he hne
    simp only [syncSelectedOverlayStates, List.mem_map] at he
    rcases he with ⟨e0, _, rfl⟩
    by_cases hid : e0.id = x
    · rw [if_pos (by simp [hid])] at hne
      exact absurd hid hne
    · rw [if_neg (by simp [hid])]
      exact ⟨rfl, rfl⟩
  · intro st2
    constructor
    · rw [getValidatedSelectedOverlay.eq_def]
      simp only [syncSelectedOverlayStates]
      rw [getValidatedFallback.eq_def]
      have h1 : (st2.doc.map (fun e =>
          { e with selected := false, keyboardActive := false })).find?
            (fun e => e.selected) = none := by
        rw [List.find?_eq_none]
        intro e he
        rcases List.mem_map.mp he with ⟨e0, _, rfl⟩
        simp
      have h2 : (st2.doc.map (fun e =>
          { e with selected := false, keyboardActive := false })).find?
            (fun e => e.keyboardActive) = none := by
        rw [List.find?_eq_none]
        intro e he
        rcases List.mem_map.mp he with ⟨e0, _, rfl⟩
        simp
      simp only [h1, h2]
    · intro e he
      simp only [syncSelectedOverlayStates, List.mem_map] at he
      rcases he with ⟨e0, _, rfl⟩
      exact ⟨rfl, rfl⟩

/-- Instantiation of `selection_sync_round_trip` on a two-segment document
with the second segment selected. -/
theorem selection_sync_round_trip_witness :
    (getValidatedSelectedOverlay (syncSelectedOverlayStates
      { doc := [{ id := "o1", selected := true, keyboardActive := false },
                { id := "o2", selected := false, keyboardActive := false }],
        selectedOverlay := some "o1" } (some "o2"))).1 = some "o2" :=
  (selection_sync_round_trip
    { doc := [{ id := "o1", selected := true, keyboardActive := false },
              { id := "o2", selected := false, keyboardActive := false }],
      selectedOverlay := some "o1" } "o2" (by simp)).1

/-- Claim C8: `OverlayState.emit` invokes every registered listener exactly
once, in registration order, catching each listener's exception at the
emission boundary (the log has one slot per listener); a prefix of
throwing listeners never prevents the remaining listeners from running
(the run distributes over concatenation), and the emission leaves the
store's internal state untouched. -/
theorem emit_listener_isolation {α : Type} (listeners l1 l2 : List (Listener α))
    (data : α) (s : OverlayStoreState) :
    emitRun listeners data =
      listeners.map (fun f => match f data with
        | .ok _ => none
        | .error e => some e) ∧
    (emitRun listeners data).length = listeners.length ∧
    emitRun (l1 ++ l2) data = emitRun l1 data ++ emitRun l2 data ∧
    (storeEmit s listeners data).1 = s := by
  have hmap : ∀ ls : List (Listener α), emitRun ls data =
      ls.map (fun f => match f data with
        | .ok _ => none
        | .error e => some e) := by
    intro ls
    induction ls with
    | nil => rfl
    | cons f rest ih => rw [emitRun, ih, List.map_cons]
  refine ⟨hmap listeners, ?_, ?_, rfl⟩
  · rw [hmap listeners, List.length_map]
  · rw [hmap (l1 ++ l2), hmap l1, hmap l2, List.map_append]

/-- Claim C10: `OverlayState.clear` empties the store's records and resets
`activeOverlay` and `videoState`, but performs no projection sync and
emits nothing, so `currentProject.overlays` keeps exactly its previous
entries even though the store is empty; had the sync run on the cleared
store, a non-empty projection would have been wiped. -/
theorem clear_preserves_projection (s : OverlayStoreState) :
    (clearStore s).projectOverlays = s.projectOverlays ∧
    (clearStore s).overlays = [] ∧
    (clearStore s).activeOverlay = none ∧
    (clearStore s).videoState = { isReady := false, duration := 0, currentTime := 0 } ∧
    (syncWithProject (clearStore s)).projectOverlays = [] := by
  refine ⟨rfl, rfl, rfl, rfl, ?_⟩
  rw [syncWithProject]
  cases hp : s.projectOverlays with
  | nil => simp [clearStore, syncLoop, hp]
  | cons p ps =>
    simp only [clearStore, hp, syncLoop, List.map_cons, List.length_cons]
    rw [if_pos (Nat.succ_pos _)]
    rw [List.filter_eq_nil_iff]
    intro q hq
    have hqid : q.id ∈ (p :: ps).map (fun r => r.id) := List.mem_map.mpr ⟨q, hq, rfl⟩
    simp only [Bool.not_eq_true', Bool.not_eq_false, List.contains_eq_any_beq,
      List.any_eq_true]
    exact ⟨q.id, by simpa using hqid, by simp⟩

theorem detectChanges_preserves (s : VSMState) (u : VSMUpdate) :
    (detectChanges s u).1.isApplyingState = s.isApplyingState ∧
    (detectChanges s u).1.updateCount = s.updateCount ∧
    (detectChanges s u).1.skippedUpdates = s.skippedUpdates ∧
    (detectChanges s u).1.batchUpdatePending = s.batchUpdatePending ∧
    (detectChanges s u).1.playhead = s.playhead ∧
    (detectChanges s u).1.progress = s.progress ∧
    (detectChanges s u).1.selection = s.selection ∧
    (detectChanges s u).1.timeline = s.timeline ∧
    (detectChanges s u).1.body = s.body ∧
    (detectChanges s u).1.markers = s.markers ∧
    (detectChanges s u).1.overlays = s.overlays :=
  ⟨rfl, rfl, rfl, rfl, rfl, rfl, rfl, rfl, rfl, rfl, rfl⟩

theorem updateStatePlayhead_preserves (s : VSMState) (u : VSMUpdate) :
    (updateStatePlayhead s u).isApplyingState = s.isApplyingState ∧
    (updateStatePlayhead s u).updateCount = s.updateCount ∧
    (updateStatePlayhead s u).skippedUpdates = s.skippedUpdates ∧
    (updateStatePlayhead s u).batchUpdatePending = s.batchUpdatePending := by
  rw [updateStatePlayhead]
  cases u.playhead <;> exact ⟨rfl, rfl, rfl, rfl⟩

theorem updateStateProgress_preserves (s : VSMState) (u : VSMUpdate) :
    (updateStateProgress s u).isApplyingState = s.isApplyingState ∧
    (updateStateProgress s u).updateCount = s.updateCount ∧
    (updateStateProgress s u).skippedUpdates = s.skippedUpdates ∧
    (updateStateProgress s u).batchUpdatePending = s.batchUpdatePending := by
  rw [updateStateProgress]
  cases u.progress <;> exact ⟨rfl, rfl, rfl, rfl⟩

theorem updateStateSelection_preserves (s : VSMState) (u : VSMUpdate) :
    (updateStateSelection s u).isApplyingState = s.isApplyingState ∧
    (updateStateSelection s u).updateCount = s.updateCount ∧
    (updateStateSelection s u).skippedUpdates = s.skippedUpdates ∧
    (updateStateSelection s u).batchUpdatePending = s.batchUpdatePending := by
  rw [updateStateSelection]
  cases u.selection <;> exact ⟨rfl, rfl, rfl, rfl⟩

theorem updateStateTimeline_preserves (s : VSMState) (u : VSMUpdate) :
    (updateStateTimeline s u).isApplyingState = s.isApplyingState ∧
    (updateStateTimeline s u).updateCount = s.updateCount ∧
    (updateStateTimeline s u).skippedUpdates = s.skippedUpdates ∧
    (updateStateTimeline s u).batchUpdatePending = s.batchUpdatePending := by
  rw [updateStateTimeline]
  cases u.timeline <;> exact ⟨rfl, rfl, rfl, rfl⟩

theorem updateStateBody_preserves (s : VSMState) (u : VSMUpdate) :
    (updateStateBody s u).isApplyingState = s.isApplyingState ∧
    (updateStateBody s u).updateCount = s.updateCount ∧
    (updateStateBody s u).skippedUpdates = s.skippedUpdates ∧
    (updateStateBody s u).batchUpdatePending = s.batchUpdatePending := by
  rw [updateStateBody]
  cases u.body <;> exact ⟨rfl, rfl, rfl, rfl⟩

theorem updateStateMarkers_preserves (s : VSMState) (u : VSMUpdate) :
    (updateStateMarkers s u).isApplyingState = s.isApplyingState ∧
    (updateStateMarkers s u).updateCount = s.updateCount ∧
    (updateStateMarkers s u).skippedUpdates = s.skippedUpdates ∧
    (updateStateMarkers s u).batchUpdatePending = s.batchUpdatePending := by
  rw [updateStateMarkers]
  cases u.markers <;> exact ⟨rfl, rfl, rfl, rfl⟩

theorem updateStateOverlays_preserves (s : VSMState) (u : VSMUpdate) :
    (updateStateOverlays s u).isApplyingState = s.isApplyingState ∧
    (updateStateOverlays s u).updateCount = s.updateCount ∧
    (updateStateOverlays s u).skippedUpdates = s.skippedUpdates ∧
    (updateStateOverlays s u).batchUpdatePending = s.batchUpdatePending := by
  rw [updateStateOverlays]
  cases u.overlays <;> exact ⟨rfl, rfl, rfl, rfl⟩

theorem updateState_preserves (s : VSMState) (u : VSMUpdate) :
    (updateState s u).isApplyingState = s.isApplyingState ∧
    (updateState s u).updateCount = s.updateCount ∧
    (updateState s u).skippedUpdates = s.skippedUpdates ∧
    (updateState s u).batchUpdatePending = s.batchUpdatePending := by
  rw [updateState]
  refine ⟨?_, ?_, ?_, ?_⟩
  · rw [(updateStateOverlays_preserves _ _).1, (updateStateMarkers_preserves _ _).1,
      (updateStateBody_preserves _ _).1, (updateStateTimeline_preserves _ _).1,
      (updateStateSelection_preserves _ _).1, (updateStateProgress_preserves _ _).1,
      (updateStatePlayhead_preserves _ _).1]
  · rw [(updateStateOverlays_preserves _ _).2.1, (updateStateMarkers_preserves _ _).2.1,
      (updateStateBody_preserves _ _).2.1, (updateStateTimeline_preserves _ _).2.1,
      (updateStateSelection_preserves _ _).2.1, (updateStateProgress_preserves _ _).2.1,
      (updateStatePlayhead_preserves _ _).2.1]
  · rw [(updateStateOverlays_preserves _ _).2.2.1, (updateStateMarkers_preserves _ _).2.2.1,
      (updateStateBody_preserves _ _).2.2.1, (updateStateTimeline_preserves _ _).2.2.1,
      (updateStateSelection_preserves _ _).2.2.1, (updateStateProgress_preserves _ _).2.2.1,
      (updateStatePlayhead_preserves _ _).2.2.1]
  · rw [(updateStateOverlays_preserves _ _).2.2.2, (updateStateMarkers_preserves _ _).2.2.2,
      (updateStateBody_preserves _ _).2.2.2, (updateStateTimeline_preserves _ _).2.2.2,
      (updateStateSelection_preserves _ _).2.2.2, (updateStateProgress_preserves _ _).2.2.2,
      (updateStatePlayhead_preserves _ _).2.2.2]

theorem applyState_run (s : VSMState) (f : SectionTag → Bool)
    (h : s.isApplyingState = false) :
    (applyState s f).1.isApplyingState = false ∧
    (applyState s f).1.updateCount = s.updateCount + 1 ∧
    (applyState s f).1.skippedUpdates = s.skippedUpdates ∧
    (applyState s f).1.batchUpdatePending = s.batchUpdatePending ∧
    (applyState s f).1.playhead = s.playhead ∧
    (applyState s f).1.progress = s.progress ∧
    (applyState s f).1.selection = s.selection ∧
    (applyState s f).1.timeline = s.timeline ∧
    (applyState s f).1.body = s.body ∧
    (applyState s f).1.markers = s.markers ∧
    (applyState s f).1.overlays = s.overlays ∧
    ((applyState s f).2 = false →
      (applyState s f).1.dirtyPlayhead = false ∧
      (applyState s f).1.dirtyProgress = false ∧
      (applyState s f).1.dirtySelection = false ∧
      (applyState s f).1.dirtyTimeline = false ∧
      (applyState s f).1.dirtyBody = false ∧
      (applyState s f).1.dirtyMarkers = false ∧
      (applyState s f).1.dirtyOverlays = false) := by
  rw [applyState]
  rw [if_neg (by rw [h]; exact Bool.false_ne_true)]
  dsimp only
  split
  · next ht =>
      exact ⟨rfl, rfl, rfl, rfl, rfl, rfl, rfl, rfl, rfl, rfl, rfl,
        fun hnothrew => absurd ht (by rw [hnothrew]; exact Bool.false_ne_true)⟩
  · next ht =>
      exact ⟨rfl, rfl, rfl, rfl, rfl, rfl, rfl, rfl, rfl, rfl, rfl,
        fun _ => ⟨rfl, rfl, rfl, rfl, rfl, rfl, rfl⟩⟩

/-- Claim C3: a `setState` call landing while `_isApplyingState` is set is
dropped before touching any bookkeeping; `applyState` entered with the
guard clear leaves the guard clear on every exit — whether or not one of
its apply steps raises — and a subsequent independent `setState` with a
real change still applies: it bumps `updateCount` by one and leaves the
skipped counter alone. -/
theorem visual_state_reentrancy_guard (s : VSMState) (f : SectionTag → Bool)
    (hidle : s.isApplyingState = false) :
    (∀ (s1 : VSMState) (u : VSMUpdate) (b : Bool) (g : SectionTag → Bool),
      s1.isApplyingState = true → setState s1 u b g = (s1, false)) ∧
    (applyState s f).1.isApplyingState = false ∧
    (∀ (u : VSMUpdate) (g : SectionTag → Bool),
      (detectChanges (applyState s f).1 u).2 = true →
      (setState (applyState s f).1 u false g).1.updateCount
          = (applyState s f).1.updateCount + 1 ∧
      (setState (applyState s f).1 u false g).1.skippedUpdates
          = (applyState s f).1.skippedUpdates ∧
      (setState (applyState s f).1 u false g).1.isApplyingState = false) := by
  have hrun := applyState_run s f hidle
  refine ⟨?_, hrun.1, ?_⟩
  · intro s1 u b g hbusy
    rw [setState, if_pos hbusy]
  · intro u g hch
    rw [setState, if_neg (by rw [hrun.1]; exact Bool.false_ne_true)]
    dsimp only
    rw [hch]
    simp only [Bool.not_true, Bool.false_eq_true, if_false]
    have hflag2 : (updateState (detectChanges (applyState s f).1 u).1 u).isApplyingState
        = false := by
      rw [(updateState_preserves _ _).1, (detectChanges_preserves _ _).1]
      exact hrun.1
    have hrun2 := applyState_run (updateState (detectChanges (applyState s f).1 u).1 u) g hflag2
    refine ⟨?_, ?_, hrun2.1⟩
    · rw [hrun2.2.1, (updateState_preserves _ _).2.1, (detectChanges_preserves _ _).2.1]
    · rw [hrun2.2.2.1, (updateState_preserves _ _).2.2.1, (detectChanges_preserves _ _).2.2.1]

/-- Instantiation of `visual_state_reentrancy_guard` at the initial manager
state with no raising steps. -/
theorem visual_state_reentrancy_guard_witness :
    (applyState vsmInitialState noRaise).1.isApplyingState = false :=
  (visual_state_reentrancy_guard vsmInitialState noRaise rfl).2.1

theorem objGet_map_self (o : JSObj) (k : String) (v : JSVal)
    (hf : (o.find? (fun kv => kv.1 == k)).isSome = true) :
    objGet (o.map (fun kv => if kv.1 == k then (k, v) else kv)) k = some v := by
  induction o with
  | nil => simp at hf
  | cons kv rest ih =>
      by_cases hk : kv.1 = k
      · rw [List.map_cons, if_pos (by simp [hk])]
        rw [objGet, List.find?_cons_of_pos _ (by simp)]
        rfl
      · rw [List.find?_cons_of_neg _ (by simp [hk])] at hf
        rw [List.map_cons, if_neg (by simp [hk])]
        rw [objGet, List.find?_cons_of_neg _ (by simp [hk])]
        exact ih hf

theorem objGet_append_self (o : JSObj) (k : String) (v : JSVal)
    (hf : ∀ kv ∈ o, kv.1 ≠ k) :
    objGet (o ++ [(k, v)]) k = some v := by
  induction o with
  | nil =>
      rw [List.nil_append, objGet, List.find?_cons_of_pos _ (by simp)]
      rfl
  | cons kv rest ih =>
      rw [List.cons_append, objGet,
        List.find?_cons_of_neg _ (by simp [hf kv (List.mem_cons_self _ _)])]
      exact ih (fun kv' h' => hf kv' (List.mem_cons_of_mem _ h'))

theorem objGet_objSet_self (o : JSObj) (k : String) (v : JSVal) :
    objGet (objSet o k v) k = some v := by
  rw [objSet]
  split
  · next hf => exact objGet_map_self o k v hf
  · next hf =>
      refine objGet_append_self o k v ?_
      have hnone : (o.find? (fun kv => kv.1 == k)) = none := by
        cases hcase : o.find? (fun kv => kv.1 == k)
        · rfl
        · exact absurd (by rw [hcase]; rfl) hf
      rw [List.find?_eq_none] at hnone
      intro kv hkv hc
      exact hnone kv hkv (by simp [hc])

theorem objGet_map_ne (o : JSObj) (k q : String) (v : JSVal) (h : q ≠ k) :
    objGet (o.map (fun kv => if kv.1 == k then (k, v) else kv)) q = objGet o q := by
  induction o with
  | nil => rfl
  | cons kv rest ih =>
      by_cases hk : kv.1 = k
      · rw [List.map_cons, if_pos (by simp [hk])]
        rw [objGet, List.find?_cons_of_neg _ (by simp [Ne.symm h]), objGet,
          List.find?_cons_of_neg _ (by simp [hk]; exact Ne.symm (hk ▸ h))]
        exact ih
      · rw [List.map_cons, if_neg (by simp [hk])]
        by_cases hq : kv.1 = q
        · rw [objGet, List.find?_cons_of_pos _ (by simp [hq]), objGet,
            List.find?_cons_of_pos _ (by simp [hq])]
        · rw [objGet, List.find?_cons_of_neg _ (by simp [hq]), objGet,
            List.find?_cons_of_neg _ (by simp [hq])]
          exact ih

theorem objGet_append_ne (o : JSObj) (k q : String) (v : JSVal) (h : q ≠ k) :
    objGet (o ++ [(k, v)]) q = objGet o q := by
  induction o with
  | nil =>
      rw [List.nil_append, objGet, List.find?_cons_of_neg _ (by simp [Ne.symm h])]
      rfl
  | cons kv rest ih =>
      by_cases hq : kv.1 = q
      · rw [List.cons_append, objGet, List.find?_cons_of_pos _ (by simp [hq]), objGet,
          List.find?_cons_of_pos _ (by simp [hq])]
      · rw [List.cons_append, objGet, List.find?_cons_of_neg _ (by simp [hq]), objGet,
          List.find?_cons_of_neg _ (by simp [hq])]
        exact ih

theorem objGet_objSet_ne (o : JSObj) (k q : String) (v : JSVal) (h : q ≠ k) :
    objGet (objSet o k v) q = objGet o q := by
  rw [objSet]
  split
  · exact objGet_map_ne o k q v h
  · exact objGet_append_ne o k q v h

theorem objGet_objAssign_not_key (c : JSObj) (i : JSObj) (k : String)
    (h : ∀ kv ∈ i, kv.1 ≠ k) : objGet (objAssign c i) k = objGet c k := by
  induction i generalizing c with
  | nil => rfl
  | cons kv rest ih =>
      rw [objAssign, List.foldl_cons]
      rw [show (List.foldl (fun acc kv => objSet acc kv.1 kv.2) (objSet c kv.1 kv.2) rest)
            = objAssign (objSet c kv.1 kv.2) rest from rfl]
      rw [ih _ (fun kv' hkv' => h kv' (List.mem_cons_of_mem _ hkv'))]
      exact objGet_objSet_ne _ _ _ _ (fun hc => h kv (List.mem_cons_self _ _) hc.symm)

theorem objGet_objAssign_mem (c : JSObj) (i : JSObj)
    (hnd : (i.map Prod.fst).Nodup) :
    ∀ kv ∈ i, objGet (objAssign c i) kv.1 = some kv.2 := by
  induction i generalizing c with
  | nil =>
      intro kv hkv
      simp at hkv
  | cons hd rest ih =>
      intro kv hkv
      rw [objAssign, List.foldl_cons]
      rw [show (List.foldl (fun acc kv => objSet acc kv.1 kv.2) (objSet c hd.1 hd.2) rest)
            = objAssign (objSet c hd.1 hd.2) rest from rfl]
      rw [List.map_cons, List.nodup_cons] at hnd
      rcases List.mem_cons.mp hkv with rfl | hkv'
      · rw [objGet_objAssign_not_key _ _ _
          (fun kv' hkv' hc => hnd.1 (by rw [← hc]; exact List.mem_map_of_mem Prod.fst hkv'))]
        exact objGet_objSet_self _ _ _
      · exact ih (objSet c hd.1 hd.2) hnd.2 kv hkv'

theorem hasObjectChanged_objAssign (c : JSObj) (i : JSObj)
    (hnd : (i.map Prod.fst).Nodup) :
    hasObjectChanged (objAssign c i) i = false := by
  rw [hasObjectChanged, List.any_eq_false]
  intro kv hkv
  rw [objGet_objAssign_mem c i hnd kv hkv]
  simp

theorem updateState_playhead_val (s : VSMState) (u : VSMUpdate) :
    (updateState s u).playhead =
      match u.playhead with
      | some inc => objAssign s.playhead inc
      | none => s.playhead := by
  rw [updateState]
  have h1 : ∀ t : VSMState, (updateStateOverlays t u).playhead = t.playhead := by
    intro t
    rw [updateStateOverlays]
    cases u.overlays <;> rfl
  have h2 : ∀ t : VSMState, (updateStateMarkers t u).playhead = t.playhead := by
    intro t
    rw [updateStateMarkers]
    cases u.markers <;> rfl
  have h3 : ∀ t : VSMState, (updateStateBody t u).playhead = t.playhead := by
    intro t
    rw [updateStateBody]
    cases u.body <;> rfl
  have h4 : ∀ t : VSMState, (updateStateTimeline t u).playhead = t.playhead := by
    intro t
    rw [updateStateTimeline]
    cases u.timeline <;> rfl
  have h5 : ∀ t : VSMState, (updateStateSelection t u).playhead = t.playhead := by
    intro t
    rw [updateStateSelection]
    cases u.selection <;> rfl
  have h6 : ∀ t : VSMState, (updateStateProgress t u).playhead = t.playhead := by
    intro t
    rw [updateStateProgress]
    cases u.progress <;> rfl
  rw [h1, h2, h3, h4, h5, h6, updateStatePlayhead]
  cases u.playhead <;> rfl

theorem updateState_progress_val (s : VSMState) (u : VSMUpdate) :
    (updateState s u).progress =
      match u.progress with
      | some inc => objAssign s.progress inc
      | none => s.progress := by
  rw [updateState]
  have h1 : ∀ t : VSMState, (updateStateOverlays t u).progress = t.progress := by
    intro t
    rw [updateStateOverlays]
    cases u.overlays <;> rfl
  have h2 : ∀ t : VSMState, (updateStateMarkers t u).progress = t.progress := by
    intro t
    rw [updateStateMarkers]
    cases u.markers <;> rfl
  have h3 : ∀ t : VSMState, (updateStateBody t u).progress = t.progress := by
    intro t
    rw [updateStateBody]
    cases u.body <;> rfl
  have h4 : ∀ t : VSMState, (updateStateTimeline t u).progress = t.progress := by
    intro t
    rw [updateStateTimeline]
    cases u.timeline <;> rfl
  have h5 : ∀ t : VSMState, (updateStateSelection t u).progress = t.progress := by
    intro t
    rw [updateStateSelection]
    cases u.selection <;> rfl
  have h0 : ∀ t : VSMState, (updateStatePlayhead t u).progress = t.progress := by
    intro t
    rw [updateStatePlayhead]
    cases u.playhead <;> rfl
  rw [h1, h2, h3, h4, h5, updateStateProgress]
  cases u.progress
  · exact h0 s
  · dsimp only
    rw [h0 s]

theorem updateState_selection_val (s : VSMState) (u : VSMUpdate) :
    (updateState s u).selection =
      match u.selection with
      | some inc => objAssign s.selection inc
      | none => s.selection := by
  rw [updateState]
  have h1 : ∀ t : VSMState, (updateStateOverlays t u).selection = t.selection := by
    intro t
    rw [updateStateOverlays]
    cases u.overlays <;> rfl
  have h2 : ∀ t : VSMState, (updateStateMarkers t u).selection = t.selection := by
    intro t
    rw [updateStateMarkers]
    cases u.markers <;> rfl
  have h3 : ∀ t : VSMState, (updateStateBody t u).selection = t.selection := by
    intro t
    rw [updateStateBody]
    cases u.body <;> rfl
  have h4 : ∀ t : VSMState, (updateStateTimeline t u).selection = t.selection := by
    intro t
    rw [updateStateTimeline]
    cases u.timeline <;> rfl
  have h5 : ∀ t : VSMState, (updateStateProgress t u).selection = t.selection := by
    intro t
    rw [updateStateProgress]
    cases u.progress <;> rfl
  have h0 : ∀ t : VSMState, (updateStatePlayhead t u).selection = t.selection := by
    intro t
    rw [updateStatePlayhead]
    cases u.playhead <;> rfl
  rw [h1, h2, h3, h4, updateStateSelection]
  cases u.selection
  · rw [h5, h0]
  · dsimp only
    rw [h5, h0]

theorem updateState_timeline_val (s : VSMState) (u : VSMUpdate) :
    (updateState s u).timeline =
      match u.timeline with
      | some inc => objAssign s.timeline inc
      | none => s.timeline := by
  rw [updateState]
  have h1 : ∀ t : VSMState, (updateStateOverlays t u).timeline = t.timeline := by
    intro t
    rw [updateStateOverlays]
    cases u.overlays <;> rfl
  have h2 : ∀ t : VSMState, (updateStateMarkers t u).timeline = t.timeline := by
    intro t
    rw [updateStateMarkers]
    cases u.markers <;> rfl
  have h3 : ∀ t : VSMState, (updateStateBody t u).timeline = t.timeline := by
    intro t
    rw [updateStateBody]
    cases u.body <;> rfl
  have h4 : ∀ t : VSMState, (updateStateSelection t u).timeline = t.timeline := by
    intro t
    rw [updateStateSelection]
    cases u.selection <;> rfl
  have h5 : ∀ t : VSMState, (updateStateProgress t u).timeline = t.timeline := by
    intro t
    rw [updateStateProgress]
    cases u.progress <;> rfl
  have h0 : ∀ t : VSMState, (updateStatePlayhead t u).timeline = t.timeline := by
    intro t
    rw [updateStatePlayhead]
    cases u.playhead <;> rfl
  rw [h1, h2, h3, updateStateTimeline]
  cases u.timeline
  · rw [h4, h5, h0]
  · dsimp only
    rw [h4, h5, h0]

theorem updateState_body_val (s : VSMState) (u : VSMUpdate) :
    (updateState s u).body =
      match u.body with
      | some inc => objAssign s.body inc
      | none => s.body := by
  rw [updateState]
  have h1 : ∀ t : VSMState, (updateStateOverlays t u).body = t.body := by
    intro t
    rw [updateStateOverlays]
    cases u.overlays <;> rfl
  have h2 : ∀ t : VSMState, (updateStateMarkers t u).body = t.body := by
    intro t
    rw [updateStateMarkers]
    cases u.markers <;> rfl
  have h3 : ∀ t : VSMState, (updateStateTimeline t u).body = t.body := by
    intro t
    rw [updateStateTimeline]
    cases u.timeline <;> rfl
  have h4 : ∀ t : VSMState, (updateStateSelection t u).body = t.body := by
    intro t
    rw [updateStateSelection]
    cases u.selection <;> rfl
  have h5 : ∀ t : VSMState, (updateStateProgress t u).body = t.body := by
    intro t
    rw [updateStateProgress]
    cases u.progress <;> rfl
  have h0 : ∀ t : VSMState, (updateStatePlayhead t u).body = t.body := by
    intro t
    rw [updateStatePlayhead]
    cases u.playhead <;> rfl
  rw [h1, h2, updateStateBody]
  cases u.body
  · rw [h3, h4, h5, h0]
  · dsimp only
    rw [h3, h4, h5, h0]

theorem detectChanges_snd (s : VSMState) (u : VSMUpdate) :
    (detectChanges s u).2 =
      ((match u.playhead with
        | some inc => hasObjectChanged s.playhead inc
        | none => false) ||
       (match u.progress with
        | some inc => hasObjectChanged s.progress inc
        | none => false) ||
       (match u.selection with
        | some inc => hasObjectChanged s.selection inc
        | none => false) ||
       (match u.timeline with
        | some inc => hasObjectChanged s.timeline inc
        | none => false) ||
       (match u.body with
        | some inc => hasObjectChanged s.body inc
        | none => false) ||
       u.markers.isSome || u.overlays.isSome) := rfl

/-- Claim C4 (counterexample): a payload containing the markers map is
never diffed — `detectChanges` marks it dirty unconditionally — so calling
`setState` twice with the identical markers payload applies a render pass
both times: `updateCount` reaches 2 and the skipped-update counter stays
at 0, where the claim demands one pass and one recorded skip. -/
theorem map_sections_not_diffed_cex :
    (setState (setState vsmInitialState
        { markers := some [("A", [("position", JSVal.num 10)])] } false noRaise).1
      { markers := some [("A", [("position", JSVal.num 10)])] } false noRaise).1.updateCount
        = 2 ∧
    (setState (setState vsmInitialState
        { markers := some [("A", [("position", JSVal.num 10)])] } false noRaise).1
      { markers := some [("A", [("position", JSVal.num 10)])] } false noRaise).1.skippedUpdates
        = 0 := by
  exact ⟨rfl, rfl⟩

/-- Claim C4 (amended): for a payload without the markers/overlays map
sections (those are dirtied unconditionally, without any diff), whose
present sections carry duplicate-free keys, and which changes the current
state: the first `setState` applies exactly one render pass
(`updateCount` + 1, nothing skipped) and the second, identical `setState`
is skipped without scheduling work — `updateCount` and
`batchUpdatePending` unchanged and `skippedUpdates` incremented by
exactly one. -/
theorem idempotent_setState_skip
    (s0 : VSMState) (u : VSMUpdate)
    (hm : u.markers = none) (ho : u.overlays = none)
    (hidle : s0.isApplyingState = false)
    (hch : (detectChanges s0 u).2 = true)
    (hk1 : ∀ o, u.playhead = some o → (o.map Prod.fst).Nodup)
    (hk2 : ∀ o, u.progress = some o → (o.map Prod.fst).Nodup)
    (hk3 : ∀ o, u.selection = some o → (o.map Prod.fst).Nodup)
    (hk4 : ∀ o, u.timeline = some o → (o.map Prod.fst).Nodup)
    (hk5 : ∀ o, u.body = some o → (o.map Prod.fst).Nodup) :
    (setState s0 u false noRaise).1.updateCount = s0.updateCount + 1 ∧
    (setState s0 u false noRaise).1.skippedUpdates = s0.skippedUpdates ∧
    (setState (setState s0 u false noRaise).1 u false noRaise).1.updateCount
        = (setState s0 u false noRaise).1.updateCount ∧
    (setState (setState s0 u false noRaise).1 u false noRaise).1.skippedUpdates
        = (setState s0 u false noRaise).1.skippedUpdates + 1 ∧
    (setState (setState s0 u false noRaise).1 u false noRaise).1.batchUpdatePending
        = (setState s0 u false noRaise).1.batchUpdatePending := by
  have hm0flag : (updateState (detectChanges s0 u).1 u).isApplyingState = false := by
    rw [(updateState_preserves _ _).1, (detectChanges_preserves _ _).1]
    exact hidle
  have happly := applyState_run (updateState (detectChanges s0 u).1 u) noRaise hm0flag
  have hset1 : setState s0 u false noRaise
      = applyState (updateState (detectChanges s0 u).1 u) noRaise := by
    rw [setState, if_neg (by rw [hidle]; exact Bool.false_ne_true)]
    dsimp only
    rw [hch]
    simp only [Bool.not_true, Bool.false_eq_true, if_false]
  have hPlayhead :
      (setState s0 u false noRaise).1.playhead =
        match u.playhead with
        | some inc => objAssign s0.playhead inc
        | none => s0.playhead := by
    rw [hset1, happly.2.2.2.2.1, updateState_playhead_val,
      (detectChanges_preserves s0 u).2.2.2.2.1]
  have hProgress :
      (setState s0 u false noRaise).1.progress =
        match u.progress with
        | some inc => objAssign s0.progress inc
        | none => s0.progress := by
    rw [hset1, happly.2.2.2.2.2.1, updateState_progress_val,
      (detectChanges_preserves s0 u).2.2.2.2.2.1]
  have hSelection :
      (setState s0 u false noRaise).1.selection =
        match u.selection with
        | some inc => objAssign s0.selection inc
        | none => s0.selection := by
    rw [hset1, happly.2.2.2.2.2.2.1, updateState_selection_val,
      (detectChanges_preserves s0 u).2.2.2.2.2.2.1]
  have hTimeline :
      (setState s0 u false noRaise).1.timeline =
        match u.timeline with
        | some inc => objAssign s0.timeline inc
        | none => s0.timeline := by
    rw [hset1, happly.2.2.2.2.2.2.2.1, updateState_timeline_val,
      (detectChanges_preserves s0 u).2.2.2.2.2.2.2.1]
  have hBody :
      (setState s0 u false noRaise).1.body =
        match u.body with
        | some inc => objAssign s0.body inc
        | none => s0.body := by
    rw [hset1, happly.2.2.2.2.2.2.2.2.1, updateState_body_val,
      (detectChanges_preserves s0 u).2.2.2.2.2.2.2.2.1]
  have hd2 : (detectChanges (setState s0 u false noRaise).1 u).2 = false := by
    rw [detectChanges_snd, hm, ho]
    have e1 : (match u.playhead with
        | some inc => hasObjectChanged (setState s0 u false noRaise).1.playhead inc
        | none => false) = false := by
      cases hpu : u.playhead with
      | none => rfl
      | some inc =>
          rw [hPlayhead, hpu]
          exact hasObjectChanged_objAssign _ _ (hk1 inc hpu)
    have e2 : (match u.progress with
        | some inc => hasObjectChanged (setState s0 u false noRaise).1.progress inc
        | none => false) = false := by
      cases hpu : u.progress with
      | none => rfl
      | some inc =>
          rw [hProgress, hpu]
          exact hasObjectChanged_objAssign _ _ (hk2 inc hpu)
    have e3 : (match u.selection with
        | some inc => hasObjectChanged (setState s0 u false noRaise).1.selection inc
        | none => false) = false := by
      cases hpu : u.selection with
      | none => rfl
      | some inc =>
          rw [hSelection, hpu]
          exact hasObjectChanged_objAssign _ _ (hk3 inc hpu)
    have e4 : (match u.timeline with
        | some inc => hasObjectChanged (setState s0 u false noRaise).1.timeline inc
        | none => false) = false := by
      cases hpu : u.timeline with
      | none => rfl
      | some inc =>
          rw [hTimeline, hpu]
          exact hasObjectChanged_objAssign _ _ (hk4 inc hpu)
    have e5 : (match u.body with
        | some inc => hasObjectChanged (setState s0 u false noRaise).1.body inc
        | none => false) = false := by
      cases hpu : u.body with
      | none => rfl
      | some inc =>
          rw [hBody, hpu]
          exact hasObjectChanged_objAssign _ _ (hk5 inc hpu)
    rw [e1, e2, e3, e4, e5]
    rfl
  have hs1flag : (setState s0 u false noRaise).1.isApplyingState = false := by
    rw [hset1]
    exact happly.1
  have hset2 : setState (setState s0 u false noRaise).1 u false noRaise
      = ({ (detectChanges (setState s0 u false noRaise).1 u).1 with
            skippedUpdates :=
              (detectChanges (setState s0 u false noRaise).1 u).1.skippedUpdates + 1 },
         false) := by
    rw [setState, if_neg (by rw [hs1flag]; exact Bool.false_ne_true)]
    dsimp only
    rw [hd2]
    rfl
  refine ⟨?_, ?_, ?_, ?_, ?_⟩
  · rw [hset1, happly.2.1, (updateState_preserves _ _).2.1,
      (detectChanges_preserves _ _).2.1]
  · rw [hset1, happly.2.2.1, (updateState_preserves _ _).2.2.1,
      (detectChanges_preserves _ _).2.2.1]
  · rw [hset2]
    exact (detectChanges_preserves (setState s0 u false noRaise).1 u).2.1
  · rw [hset2]
    dsimp only
    rw [(detectChanges_preserves (setState s0 u false noRaise).1 u).2.2.1]
  · rw [hset2]
    exact (detectChanges_preserves (setState s0 u false noRaise).1 u).2.2.2.1

/-- Instantiation of `idempotent_setState_skip`: moving the playhead to
50% twice from the initial state. -/
theorem idempotent_setState_skip_witness :
    (setState vsmInitialState { playhead := some [("position", JSVal.num 50)] }
        false noRaise).1.updateCount = vsmInitialState.updateCount + 1 ∧
    (setState vsmInitialState { playhead := some [("position", JSVal.num 50)] }
        false noRaise).1.skippedUpdates = vsmInitialState.skippedUpdates ∧
    (setState (setState vsmInitialState
        { playhead := some [("position", JSVal.num 50)] } false noRaise).1
      { playhead := some [("position", JSVal.num 50)] } false noRaise).1.updateCount
        = (setState vsmInitialState { playhead := some [("position", JSVal.num 50)] }
            false noRaise).1.updateCount ∧
    (setState (setState vsmInitialState
        { playhead := some [("position", JSVal.num 50)] } false noRaise).1
      { playhead := some [("position", JSVal.num 50)] } false noRaise).1.skippedUpdates
        = (setState vsmInitialState { playhead := some [("position", JSVal.num 50)] }
            false noRaise).1.skippedUpdates + 1 ∧
    (setState (setState vsmInitialState
        { playhead := some [("position", JSVal.num 50)] } false noRaise).1
      { playhead := some [("position", JSVal.num 50)] } false noRaise).1.batchUpdatePending
        = (setState vsmInitialState { playhead := some [("position", JSVal.num 50)] }
            false noRaise).1.batchUpdatePending :=
  idempotent_setState_skip vsmInitialState
    { playhead := some [("position", JSVal.num 50)] } rfl rfl rfl (by decide)
    (fun o h => by cases h; decide) (fun o h => Option.noConfusion h)
    (fun o h => Option.noConfusion h) (fun o h => Option.noConfusion h)
    (fun o h => Option.noConfusion h)

theorem syncWithProject_overlays (s : OverlayStoreState) :
    (syncWithProject s).overlays = s.overlays := rfl

theorem find?_updateFirstById (l : List Overlay) (idv : String) (p : OverlayPatch)
    (o : Overlay) (h : l.find? (fun r => r.id == idv) = some o) :
    (updateFirstById l idv p).find? (fun r => r.id == idv) = some (applyPatch o p) := by
  induction l with
  | nil => simp at h
  | cons hd tl ih =>
      cases hk : hd.id == idv
      · simp only [List.find?_cons, hk] at h
        rw [updateFirstById, if_neg (by rw [hk]; exact Bool.false_ne_true)]
        simp only [List.find?_cons, hk]
        exact ih h
      · simp only [List.find?_cons, hk] at h
        rw [updateFirstById, if_pos hk]
        have hk2 : ((applyPatch hd p).id == idv) = true := hk
        simp only [List.find?_cons, hk2]
        rw [Option.some.injEq] at h
        rw [h]

/-- Claim C6 (counterexample): a `move` interaction commits to the Overlay
Store on the very first `mousemove` — with a 100 s video and a 1000 px
track, dragging the segment that starts at 10 s by 100 px rewrites its
stored `startTime` to 20 — and abandoning the interaction afterwards
(`endCurrentInteraction`, the path a cancellation takes) performs no
store write, so the store keeps 20 and is not restored to its
pre-interaction value 10. -/
theorem cancelled_drag_partial_commit_cex :
    ((endCurrentInteraction
        { isDragging := true, elementAttached := true, initialX := 0, initialLeft := 10,
          initialWidth := 10, interactionType := some "move" }
        (overlayMoveMouseMove 100 1000
          { isDragging := true, elementAttached := true, initialX := 0, initialLeft := 10,
            initialWidth := 10, interactionType := some "move" }
          { id := "a", leftPercent := 10, widthPercent := 10, dataStart := 10,
            dataDuration := 5 }
          { overlays := [{ id := "a", startTime := 10, duration := 5 }],
            projectOverlays := [] }
          100).2).2.overlays.map (fun o => o.startTime)) = [20] ∧
    (10 : ℚ) ≠ 20 := by
  constructor
  · rw [overlayMoveMouseMove]
    rw [if_neg (by decide)]
    rw [if_neg (by norm_num)]
    rw [endCurrentInteraction, if_neg (by decide)]
    dsimp only
    have harith : moveNewPosition 10 ((100 - 0) / 1000 * 100) / 100 * 100 = (20 : ℚ) := by
      rw [moveNewPosition]
      rw [min_eq_right (by norm_num), max_eq_right (by norm_num)]
      norm_num
    rw [harith]
    rfl
  · norm_num

/-- Claim C6 (amended): during a drag the store is the write model on every
move — each `mousemove` of a `move` interaction immediately overwrites the
dragged overlay's stored `startTime` with the recomputed clamped value —
while ending or cancelling the interaction (`endCurrentInteraction`)
touches only the interaction-local drag state and never writes or
restores the store; an abandoned interaction therefore leaves the store
at the last mid-drag value rather than reverting it. -/
theorem drag_write_through_no_revert
    (duration trackWidth : ℚ) (drag : DragState) (elem : OverlaySegment)
    (store : OverlayStoreState) (clientX : ℚ) (o : Overlay)
    (hdrag : drag.isDragging = true) (htw : 0 < trackWidth)
    (hfind : store.overlays.find? (fun r => r.id == elem.id) = some o) :
    ((overlayMoveMouseMove duration trackWidth drag elem store clientX).2.overlays.find?
        (fun r => r.id == elem.id)) =
      some (applyPatch o
        { startTime := some (moveNewPosition drag.initialLeft
            ((clientX - drag.initialX) / trackWidth * 100) / 100 * duration),
          startCompat := some (moveNewPosition drag.initialLeft
            ((clientX - drag.initialX) / trackWidth * 100) / 100 * duration) }) ∧
    (endCurrentInteraction drag store).2 = store ∧
    (endCurrentInteraction drag store).1.isDragging = false := by
  refine ⟨?_, ?_, ?_⟩
  · rw [overlayMoveMouseMove]
    rw [if_neg (by rw [hdrag]; simp)]
    rw [if_neg (not_le.mpr htw)]
    dsimp only
    rw [updateOverlay.eq_def, hfind]
    exact find?_updateFirstById store.overlays elem.id _ o hfind
  · rw [endCurrentInteraction, if_neg (by rw [hdrag]; simp)]
  · rw [endCurrentInteraction, if_neg (by rw [hdrag]; simp)]
    rfl

/-- Instantiation of `drag_write_through_no_revert` at the counterexample's
configuration. -/
theorem drag_write_through_no_revert_witness :
    ((overlayMoveMouseMove 100 1000
        { isDragging := true, elementAttached := true, initialX := 0, initialLeft := 10,
          initialWidth := 10, interactionType := some "move" }
        { id := "a", leftPercent := 10, widthPercent := 10, dataStart := 10,
          dataDuration := 5 }
        { overlays := [{ id := "a", startTime := 10, duration := 5 }],
          projectOverlays := [] }
        100).2.overlays.find? (fun r => r.id == "a")) =
      some (applyPatch { id := "a", startTime := 10, duration := 5 }
        { startTime := some (moveNewPosition 10 ((100 - 0) / 1000 * 100) / 100 * 100),
          startCompat := some (moveNewPosition 10 ((100 - 0) / 1000 * 100) / 100 * 100) }) ∧
    (endCurrentInteraction
        { isDragging := true, elementAttached := true, initialX := 0, initialLeft := 10,
          initialWidth := 10, interactionType := some "move" }
        { overlays := [{ id := "a", startTime := 10, duration := 5 }],
          projectOverlays := [] }).2 =
      { overlays := [{ id := "a", startTime := 10, duration := 5 }],
        projectOverlays := [] } ∧
    (endCurrentInteraction
        { isDragging := true, elementAttached := true, initialX := 0, initialLeft := 10,
          initialWidth := 10, interactionType := some "move" }
        { overlays := [{ id := "a", startTime := 10, duration := 5 }],
          projectOverlays := [] }).1.isDragging = false :=
  drag_write_through_no_revert 100 1000
    { isDragging := true, elementAttached := true, initialX := 0, initialLeft := 10,
      initialWidth := 10, interactionType := some "move" }
    { id := "a", leftPercent := 10, widthPercent := 10, dataStart := 10, dataDuration := 5 }
    { overlays := [{ id := "a", startTime := 10, duration := 5 }], projectOverlays := [] }
    100 { id := "a", startTime := 10, duration := 5 } rfl (by norm_num) rfl

theorem syncUpdate_id (os : List Overlay) (p : ProjectOverlay) :
    (syncUpdate os p).id = p.id := by
  rw [syncUpdate]
  cases h : os.find? (fun o => o.id == p.id) with
  | none => rfl
  | some o =>
      have := List.find?_some h
      simp only [beq_iff_eq] at this
      exact this

theorem syncUpdate_swap (o : Overlay) (os : List Overlay) (p : ProjectOverlay)
    (ho : o.id ∉ os.map (fun r => r.id)) :
    syncUpdate os (if p.id == o.id then overlayData o else p) = syncUpdate (o :: os) p := by
  by_cases hp : p.id = o.id
  · rw [if_pos (by simp [hp])]
    rw [syncUpdate, syncUpdate]
    rw [List.find?_cons_of_pos _ (by simp [hp])]
    have hnone : os.find? (fun r => r.id == (overlayData o).id) = none := by
      rw [List.find?_eq_none]
      intro r hr hbeq
      simp only [beq_iff_eq] at hbeq
      have hbeq2 : r.id = o.id := hbeq
      exact ho (hbeq2 ▸ List.mem_map_of_mem _ hr)
    rw [hnone]
  · rw [if_neg (by simp [hp])]
    rw [syncUpdate, syncUpdate]
    rw [List.find?_cons_of_neg _ (by simp; exact fun hc => hp hc.symm)]

theorem swap_preserves_ids (proj : List ProjectOverlay) (o : Overlay) :
    (proj.map (fun p => if p.id == o.id then overlayData o else p)).map (fun p => p.id)
      = proj.map (fun p => p.id) := by
  rw [List.map_map]
  refine List.map_congr_left ?_
  intro p _
  show (if p.id == o.id then overlayData o else p).id = p.id
  by_cases hp : p.id = o.id
  · rw [if_pos (by simp [hp])]
    exact hp.symm
  · rw [if_neg (by simp [hp])]

theorem contains_eq_decide (l : List String) (a : String) :
    l.contains a = decide (a ∈ l) :=
  List.elem_eq_mem a l

theorem syncLoop_characterization (os : List Overlay) :
    ∀ (proj : List ProjectOverlay) (keys : List String),
    keys.Nodup →
    (os.map (fun o => o.id)).Nodup →
    (∀ o ∈ os, o.id ∈ proj.map (fun p => p.id) → o.id ∈ keys) →
    (syncLoop os proj keys).1.filter
        (fun p => !((syncLoop os proj keys).2.contains p.id)) =
      (proj.map (syncUpdate os)).filter
        (fun p => (os.map (fun o => o.id)).contains p.id || !(keys.contains p.id))
      ++ (os.filter (fun o => !(keys.contains o.id))).map overlayData := by
  induction os with
  | nil =>
      intro proj keys _ _ _
      rw [syncLoop]
      dsimp only
      have hmap : proj.map (syncUpdate []) = proj := by
        have h1 : proj.map (syncUpdate []) = proj.map id :=
          List.map_congr_left (fun p _ => rfl)
        rw [h1, List.map_id]
      rw [hmap]
      simp only [List.map_nil, List.filter_nil, List.append_nil]
      refine (List.filter_congr ?_).symm
      intro p _
      simp
  | cons o os ih =>
      intro proj keys hkeys hnodup hunsettled
      have hnotin : o.id ∉ os.map (fun r => r.id) := by
        rw [List.map_cons, List.nodup_cons] at hnodup
        exact hnodup.1
      have hnodup' : (os.map (fun r => r.id)).Nodup := by
        rw [List.map_cons, List.nodup_cons] at hnodup
        exact hnodup.2
      rw [syncLoop]
      by_cases hmem : keys.contains o.id = true
      · rw [if_pos hmem]
        rw [contains_eq_decide, decide_eq_true_eq] at hmem
        have hut : ∀ o' ∈ os,
            o'.id ∈ (proj.map (fun p => if p.id == o.id then overlayData o else p)).map
              (fun p => p.id) → o'.id ∈ keys.erase o.id := by
          intro o' ho' hmem'
          rw [swap_preserves_ids] at hmem'
          have h1 : o'.id ∈ keys := hunsettled o' (List.mem_cons_of_mem _ ho') hmem'
          have hne : o'.id ≠ o.id := fun hc => hnotin (hc ▸ List.mem_map_of_mem _ ho')
          exact (List.mem_erase_of_ne hne).mpr h1
        rw [ih _ _ (hkeys.erase _) hnodup' hut]
        have hpart1 :
            ((proj.map (fun p => if p.id == o.id then overlayData o else p)).map
                (syncUpdate os)).filter
              (fun p => (os.map (fun r => r.id)).contains p.id ||
                !((keys.erase o.id).contains p.id)) =
            (proj.map (syncUpdate (o :: os))).filter
              (fun p => ((o :: os).map (fun r => r.id)).contains p.id ||
                !(keys.contains p.id)) := by
          rw [List.map_map]
          have hmapeq : proj.map
              ((syncUpdate os) ∘ (fun p => if p.id == o.id then overlayData o else p)) =
              proj.map (syncUpdate (o :: os)) :=
            List.map_congr_left (fun p _ => syncUpdate_swap o os p hnotin)
          rw [hmapeq]
          refine List.filter_congr ?_
          intro q hq
          rcases List.mem_map.mp hq with ⟨p, _, rfl⟩
          rw [syncUpdate_id]
          by_cases hqid : p.id = o.id
          · have e1 : ((o :: os).map (fun r => r.id)).contains p.id = true := by
              rw [contains_eq_decide, decide_eq_true_eq, List.map_cons]
              exact hqid ▸ List.mem_cons_self _ _
            have e2 : (os.map (fun r => r.id)).contains p.id = false := by
              rw [contains_eq_decide, decide_eq_false_iff_not]
              rw [hqid]
              exact hnotin
            have e3 : ((keys.erase o.id).contains p.id) = false := by
              rw [contains_eq_decide, decide_eq_false_iff_not, hqid]
              rw [hkeys.mem_erase_iff]
              exact fun hc => hc.1 rfl
            rw [e1, e2, e3]
            rfl
          · have e1 : ((o :: os).map (fun r => r.id)).contains p.id =
                (os.map (fun r => r.id)).contains p.id := by
              rw [contains_eq_decide, contains_eq_decide, List.map_cons]
              simp only [List.mem_cons]
              congr 1
              simp only [eq_iff_iff]
              exact ⟨fun h => h.elim (fun hc => absurd hc hqid) id, Or.inr⟩
            have e2 : ((keys.erase o.id).contains p.id) = (keys.contains p.id) := by
              rw [contains_eq_decide, contains_eq_decide]
              congr 1
              simp only [eq_iff_iff]
              exact List.mem_erase_of_ne hqid
            rw [e1, e2]
        have hpart2 :
            (os.filter (fun r => !((keys.erase o.id).contains r.id))).map overlayData =
            ((o :: os).filter (fun r => !(keys.contains r.id))).map overlayData := by
          have hhead : (!(keys.contains o.id)) = false := by
            rw [contains_eq_decide, decide_eq_true hmem]
            rfl
          rw [List.filter_cons, hhead]
          rw [if_neg Bool.false_ne_true]
          congr 1
          refine List.filter_congr ?_
          intro r hr
          have hne : r.id ≠ o.id := fun hc => hnotin (hc ▸ List.mem_map_of_mem _ hr)
          rw [contains_eq_decide, contains_eq_decide]
          exact congrArg Bool.not (decide_eq_decide.mpr (List.mem_erase_of_ne hne))
        rw [hpart1, hpart2]
      · rw [if_neg hmem]
        rw [contains_eq_decide, decide_eq_true_eq] at hmem
        have hoid_notin_proj : o.id ∉ proj.map (fun p => p.id) := by
          intro hc
          exact hmem (hunsettled o (List.mem_cons_self _ _) hc)
        have hut : ∀ o' ∈ os,
            o'.id ∈ (proj ++ [overlayData o]).map (fun p => p.id) → o'.id ∈ keys := by
          intro o' ho' hmem'
          rw [List.map_append] at hmem'
          rcases List.mem_append.mp hmem' with h1 | h1
          · exact hunsettled o' (List.mem_cons_of_mem _ ho') h1
          · exfalso
            simp only [List.map_cons, List.map_nil, List.mem_singleton] at h1
            have h2 : o'.id = o.id := h1
            exact hnotin (h2 ▸ List.mem_map_of_mem _ ho')
        rw [ih _ _ hkeys hnodup' hut]
        have hsu : syncUpdate os (overlayData o) = overlayData o := by
          rw [syncUpdate]
          have hnone : os.find? (fun r => r.id == (overlayData o).id) = none := by
            rw [List.find?_eq_none]
            intro r hr hbeq
            simp only [beq_iff_eq] at hbeq
            have hbeq2 : r.id = o.id := hbeq
            exact hnotin (hbeq2 ▸ List.mem_map_of_mem _ hr)
          rw [hnone]
        have hkeep : ((os.map (fun r => r.id)).contains (overlayData o).id ||
            !(keys.contains (overlayData o).id)) = true := by
          have h2 : keys.contains (overlayData o).id = false := by
            rw [contains_eq_decide, decide_eq_false_iff_not]
            exact hmem
          rw [h2]
          simp
        rw [List.map_append]
        rw [List.map_cons, List.map_nil, hsu]
        rw [List.filter_append]
        rw [List.filter_cons, hkeep]
        simp only [if_true, List.filter_nil]
        have hprojpart :
            (proj.map (syncUpdate os)).filter
              (fun p => (os.map (fun r => r.id)).contains p.id || !(keys.contains p.id)) =
            (proj.map (syncUpdate (o :: os))).filter
              (fun p => ((o :: os).map (fun r => r.id)).contains p.id ||
                !(keys.contains p.id)) := by
          have hmapeq : proj.map (syncUpdate os) = proj.map (syncUpdate (o :: os)) := by
            refine List.map_congr_left ?_
            intro p hp
            have hne : (o.id == p.id) = false := by
              simp only [beq_eq_false_iff_ne, ne_eq]
              intro hc
              exact hoid_notin_proj (hc ▸ List.mem_map_of_mem _ hp)
            rw [syncUpdate, syncUpdate]
            simp only [List.find?_cons, hne]
          rw [hmapeq]
          refine List.filter_congr ?_
          intro q hq
          rcases List.mem_map.mp hq with ⟨p, hp, rfl⟩
          rw [syncUpdate_id]
          have hqne : p.id ≠ o.id := by
            intro hc
            exact hoid_notin_proj (hc ▸ List.mem_map_of_mem _ hp)
          have e1 : ((o :: os).map (fun r => r.id)).contains p.id =
              (os.map (fun r => r.id)).contains p.id := by
            rw [contains_eq_decide, contains_eq_decide, List.map_cons]
            congr 1
            simp only [eq_iff_iff, List.mem_cons]
            exact ⟨fun h => h.elim (fun hc => absurd hc hqne) id, Or.inr⟩
          rw [e1]
        have hheadfil : ((o :: os).filter (fun r => !(keys.contains r.id))).map overlayData
            = overlayData o :: (os.filter (fun r => !(keys.contains r.id))).map overlayData := by
          rw [List.filter_cons]
          have hko : (!(keys.contains o.id)) = true := by
            rw [contains_eq_decide, decide_eq_false_iff_not.mpr hmem]
            rfl
          rw [hko]
          simp only [if_true, List.map_cons]
        rw [hprojpart, hheadfil]
        rw [List.append_assoc]
        rfl

theorem syncWithProject_proj_eq (t : OverlayStoreState)
    (hstore : (t.overlays.map (fun o => o.id)).Nodup)
    (hproj : (t.projectOverlays.map (fun p => p.id)).Nodup) :
    (syncWithProject t).projectOverlays =
      (t.projectOverlays.map (syncUpdate t.overlays)).filter
        (fun p => (t.overlays.map (fun o => o.id)).contains p.id)
      ++ (t.overlays.filter
          (fun o => !((t.projectOverlays.map (fun p => p.id)).contains o.id))).map
        overlayData := by
  have hchar := syncLoop_characterization t.overlays t.projectOverlays
    (t.projectOverlays.map (fun p => p.id)) hproj hstore (fun _ _ h => h)
  have hbridge : (syncWithProject t).projectOverlays =
      (syncLoop t.overlays t.projectOverlays
        (t.projectOverlays.map (fun p => p.id))).1.filter
        (fun p => !((syncLoop t.overlays t.projectOverlays
          (t.projectOverlays.map (fun p => p.id))).2.contains p.id)) := by
    rw [syncWithProject]
    dsimp only
    split
    · rfl
    · next hlen =>
        have hnil : (syncLoop t.overlays t.projectOverlays
            (t.projectOverlays.map (fun p => p.id))).2 = [] := by
          rw [← List.length_eq_zero]
          omega
        rw [hnil]
        refine (List.filter_eq_self.mpr ?_).symm
        intro p _
        rfl
  rw [hbridge, hchar]
  congr 1
  refine List.filter_congr ?_
  intro q hq
  rcases List.mem_map.mp hq with ⟨p, hp, rfl⟩
  rw [syncUpdate_id]
  have hin : (t.projectOverlays.map (fun p => p.id)).contains p.id = true := by
    rw [contains_eq_decide, decide_eq_true_eq]
    exact List.mem_map_of_mem _ hp
  rw [hin]
  simp only [Bool.not_true, Bool.or_false]

theorem sync_count_one (t : OverlayStoreState)
    (hstore : (t.overlays.map (fun o => o.id)).Nodup)
    (hproj : (t.projectOverlays.map (fun p => p.id)).Nodup)
    (idv : String) (hid : idv ∈ t.overlays.map (fun o => o.id)) :
    ((syncWithProject t).projectOverlays.filter (fun p => p.id == idv)).length = 1 := by
  rw [syncWithProject_proj_eq t hstore hproj, List.filter_append, List.length_append,
    ← List.countP_eq_length_filter, ← List.countP_eq_length_filter]
  have h1 : List.countP (fun p => p.id == idv)
      ((t.projectOverlays.map (syncUpdate t.overlays)).filter
        (fun p => (t.overlays.map (fun o => o.id)).contains p.id)) =
      List.count idv (t.projectOverlays.map (fun p => p.id)) := by
    rw [List.countP_filter, List.countP_map]
    rw [List.count_eq_countP, List.countP_map]
    refine List.countP_congr ?_
    intro p _
    simp only [Function.comp, syncUpdate_id]
    constructor
    · intro h
      rw [Bool.and_eq_true] at h
      exact h.1
    · intro h
      rw [Bool.and_eq_true]
      refine ⟨h, ?_⟩
      have h2 : p.id = idv := by simpa using h
      rw [contains_eq_decide, decide_eq_true_eq, h2]
      exact hid
  have h2 : List.countP (fun p => p.id == idv)
      ((t.overlays.filter
        (fun o => !((t.projectOverlays.map (fun p => p.id)).contains o.id))).map
          overlayData) =
      List.countP
        (fun o => o.id == idv && !((t.projectOverlays.map (fun p => p.id)).contains o.id))
        t.overlays := by
    rw [List.countP_map, List.countP_filter]
    refine List.countP_congr ?_
    intro o _
    exact Iff.rfl
  rw [h1, h2]
  by_cases hin : idv ∈ t.projectOverlays.map (fun p => p.id)
  · rw [List.count_eq_one_of_mem hproj hin]
    have hz : List.countP (fun o => o.id == idv &&
        !((t.projectOverlays.map (fun p => p.id)).contains o.id)) t.overlays = 0 := by
      rw [List.countP_eq_zero]
      intro o _
      rw [Bool.and_eq_true]
      rintro ⟨hbeq, hnc⟩
      rw [beq_iff_eq] at hbeq
      rw [Bool.not_eq_true', contains_eq_decide, decide_eq_false_iff_not] at hnc
      exact hnc (hbeq ▸ hin)
    rw [hz]
  · rw [List.count_eq_zero.mpr hin]
    have hone : List.countP (fun o => o.id == idv &&
        !((t.projectOverlays.map (fun p => p.id)).contains o.id)) t.overlays =
        List.count idv (t.overlays.map (fun o => o.id)) := by
      rw [List.count_eq_countP, List.countP_map]
      refine List.countP_congr ?_
      intro o _
      simp only [Function.comp]
      constructor
      · intro h
        rw [Bool.and_eq_true] at h
        exact h.1
      · intro h
        rw [Bool.and_eq_true]
        refine ⟨h, ?_⟩
        have h3 : o.id = idv := by simpa using h
        rw [Bool.not_eq_true', contains_eq_decide, decide_eq_false_iff_not, h3]
        exact hin
    rw [hone, List.count_eq_one_of_mem hstore hid]

theorem sync_mem_store (t : OverlayStoreState)
    (hstore : (t.overlays.map (fun o => o.id)).Nodup)
    (hproj : (t.projectOverlays.map (fun p => p.id)).Nodup) :
    ∀ p ∈ (syncWithProject t).projectOverlays,
      ∃ o ∈ t.overlays, o.id = p.id ∧ p.start = o.startTime ∧ p.duration = o.duration := by
  rw [syncWithProject_proj_eq t hstore hproj]
  intro p hp
  rcases List.mem_append.mp hp with h1 | h2
  · have h1' := List.mem_filter.mp h1
    rcases List.mem_map.mp h1'.1 with ⟨p0, _, rfl⟩
    cases hf : t.overlays.find? (fun o => o.id == p0.id) with
    | some o =>
        have he : syncUpdate t.overlays p0 = overlayData o := by
          rw [syncUpdate, hf]
        refine ⟨o, List.mem_of_find?_eq_some hf, ?_, ?_, ?_⟩
        · rw [he]
          rfl
        · rw [he]
          rfl
        · rw [he]
          rfl
    | none =>
        exfalso
        have he : syncUpdate t.overlays p0 = p0 := by
          rw [syncUpdate, hf]
        have hc := h1'.2
        rw [he, contains_eq_decide, decide_eq_true_eq] at hc
        rcases List.mem_map.mp hc with ⟨o, ho, hoid⟩
        rw [List.find?_eq_none] at hf
        exact hf o ho (by simp [hoid])
  · rcases List.mem_map.mp h2 with ⟨o, ho, rfl⟩
    exact ⟨o, (List.mem_filter.mp ho).1, rfl, rfl, rfl⟩

theorem sync_ids_nodup (t : OverlayStoreState)
    (hstore : (t.overlays.map (fun o => o.id)).Nodup)
    (hproj : (t.projectOverlays.map (fun p => p.id)).Nodup) :
    ((syncWithProject t).projectOverlays.map (fun p => p.id)).Nodup := by
  rw [syncWithProject_proj_eq t hstore hproj, List.map_append]
  have hu : (t.projectOverlays.map (syncUpdate t.overlays)).map (fun p => p.id)
      = t.projectOverlays.map (fun p => p.id) := by
    rw [List.map_map]
    exact List.map_congr_left (fun p _ => syncUpdate_id t.overlays p)
  refine List.Nodup.append ?_ ?_ ?_
  · refine List.Nodup.sublist ?_ hproj
    rw [← hu]
    exact List.Sublist.map _ (List.filter_sublist _)
  · refine List.Nodup.sublist ?_ hstore
    have hoD : ((t.overlays.filter
        (fun o => !((t.projectOverlays.map (fun p => p.id)).contains o.id))).map
          overlayData).map (fun p => p.id)
        = (t.overlays.filter
            (fun o => !((t.projectOverlays.map (fun p => p.id)).contains o.id))).map
          (fun o => o.id) := by
      rw [List.map_map]
      exact List.map_congr_left (fun o _ => rfl)
    rw [hoD]
    exact List.Sublist.map _ (List.filter_sublist _)
  · intro a ha hb
    have haid : a ∈ t.projectOverlays.map (fun p => p.id) := by
      rcases List.mem_map.mp ha with ⟨q, hq, rfl⟩
      rcases List.mem_map.mp (List.mem_of_mem_filter hq) with ⟨p0, hp0, rfl⟩
      rw [syncUpdate_id]
      exact List.mem_map_of_mem _ hp0
    rcases List.mem_map.mp hb with ⟨q, hq, hqa⟩
    rcases List.mem_map.mp hq with ⟨o, ho, rfl⟩
    have hcond := (List.mem_filter.mp ho).2
    rw [Bool.not_eq_true', contains_eq_decide, decide_eq_false_iff_not] at hcond
    apply hcond
    have hqa2 : o.id = a := hqa
    rw [hqa2]
    exact haid

theorem updateFirstById_map_id (l : List Overlay) (idv : String) (p : OverlayPatch) :
    (updateFirstById l idv p).map (fun o => o.id) = l.map (fun o => o.id) := by
  induction l with
  | nil => rfl
  | cons hd tl ih =>
      rw [updateFirstById]
      split
      · rfl
      · rw [List.map_cons, List.map_cons, ih]

theorem effectiveId_eq (o : Overlay) (g : String) :
    (if o.id = "" then { o with id := g } else o).id = effectiveId o g := by
  rw [effectiveId]
  split
  · rfl
  · rfl

theorem applyOp_preserves (s : OverlayStoreState) (op : StoreOp)
    (h1 : (s.overlays.map (fun o => o.id)).Nodup)
    (h2 : (s.projectOverlays.map (fun p => p.id)).Nodup)
    (h3 : ∀ idv, idv ∈ s.overlays.map (fun o => o.id) →
      (s.projectOverlays.filter (fun p => p.id == idv)).length = 1)
    (h4 : ∀ p ∈ s.projectOverlays, ∃ o ∈ s.overlays,
      o.id = p.id ∧ p.start = o.startTime ∧ p.duration = o.duration)
    (hsafe : (match op with
       | .add o g => !((s.overlays.map (fun r => r.id)).contains (effectiveId o g))
       | _ => true) = true) :
    ((applyOp s op).overlays.map (fun o => o.id)).Nodup ∧
    ((applyOp s op).projectOverlays.map (fun p => p.id)).Nodup ∧
    (∀ idv, idv ∈ (applyOp s op).overlays.map (fun o => o.id) →
      ((applyOp s op).projectOverlays.filter (fun p => p.id == idv)).length = 1) ∧
    (∀ p ∈ (applyOp s op).projectOverlays, ∃ o ∈ (applyOp s op).overlays,
      o.id = p.id ∧ p.start = o.startTime ∧ p.duration = o.duration) := by
  cases op with
  | add o g =>
      have hfresh : effectiveId o g ∉ s.overlays.map (fun r => r.id) := by
        have hsafe2 : (!((s.overlays.map (fun r => r.id)).contains (effectiveId o g)))
            = true := hsafe
        rw [contains_eq_decide] at hsafe2
        simpa using hsafe2
      have ht1 : (({ s with overlays :=
          s.overlays ++ [if o.id = "" then { o with id := g } else o] } :
            OverlayStoreState).overlays.map (fun r => r.id)).Nodup := by
        show ((s.overlays ++ [if o.id = "" then { o with id := g } else o]).map
          (fun r => r.id)).Nodup
        rw [List.map_append, List.nodup_append]
        refine ⟨h1, List.nodup_singleton _, ?_⟩
        intro a ha hb
        simp only [List.map_cons, List.map_nil, List.mem_singleton] at hb
        rw [effectiveId_eq] at hb
        exact hfresh (hb ▸ ha)
      refine ⟨ht1, ?_, ?_, ?_⟩
      · exact sync_ids_nodup _ ht1 h2
      · intro idv hid
        exact sync_count_one _ ht1 h2 idv hid
      · exact sync_mem_store _ ht1 h2
  | remove i =>
      have ht1 : (({ s with overlays := s.overlays.filter (fun o => !(o.id == i)) } :
          OverlayStoreState).overlays.map (fun r => r.id)).Nodup := by
        show ((s.overlays.filter (fun o => !(o.id == i))).map (fun r => r.id)).Nodup
        exact List.Nodup.sublist (List.Sublist.map _ (List.filter_sublist _)) h1
      refine ⟨ht1, ?_, ?_, ?_⟩
      · exact sync_ids_nodup _ ht1 h2
      · intro idv hid
        exact sync_count_one _ ht1 h2 idv hid
      · exact sync_mem_store _ ht1 h2
  | update i d =>
      have happ : applyOp s (StoreOp.update i d) = (updateOverlay s i d).1 := rfl
      rw [happ]
      cases hf : s.overlays.find? (fun o => o.id == i) with
      | none =>
          have hsame : (updateOverlay s i d).1 = s := by
            rw [updateOverlay, hf]
          rw [hsame]
          exact ⟨h1, h2, h3, h4⟩
      | some o0 =>
          have hsame : (updateOverlay s i d).1 =
              syncWithProject { s with overlays := updateFirstById s.overlays i d } := by
            rw [updateOverlay, hf]
          rw [hsame]
          have ht1 : (({ s with overlays := updateFirstById s.overlays i d } :
              OverlayStoreState).overlays.map (fun r => r.id)).Nodup := by
            show ((updateFirstById s.overlays i d).map (fun r => r.id)).Nodup
            rw [updateFirstById_map_id]
            exact h1
          refine ⟨ht1, ?_, ?_, ?_⟩
          · exact sync_ids_nodup _ ht1 h2
          · intro idv hid
            exact sync_count_one _ ht1 h2 idv hid
          · exact sync_mem_store _ ht1 h2

theorem runOps_invariant (ops : List StoreOp) :
    ∀ s : OverlayStoreState,
    (s.overlays.map (fun o => o.id)).Nodup →
    (s.projectOverlays.map (fun p => p.id)).Nodup →
    (∀ idv, idv ∈ s.overlays.map (fun o => o.id) →
      (s.projectOverlays.filter (fun p => p.id == idv)).length = 1) →
    (∀ p ∈ s.projectOverlays, ∃ o ∈ s.overlays,
      o.id = p.id ∧ p.start = o.startTime ∧ p.duration = o.duration) →
    safeOps s ops = true →
    ((runOps s ops).overlays.map (fun o => o.id)).Nodup ∧
    ((runOps s ops).projectOverlays.map (fun p => p.id)).Nodup ∧
    (∀ idv, idv ∈ (runOps s ops).overlays.map (fun o => o.id) →
      ((runOps s ops).projectOverlays.filter (fun p => p.id == idv)).length = 1) ∧
    (∀ p ∈ (runOps s ops).projectOverlays, ∃ o ∈ (runOps s ops).overlays,
      o.id = p.id ∧ p.start = o.startTime ∧ p.duration = o.duration) := by
  induction ops with
  | nil =>
      intro s a b c d _
      exact ⟨a, b, c, d⟩
  | cons op ops ih =>
      intro s a b c d hsafe
      cases op with
      | add o g =>
          have hsafe2 : ((!((s.overlays.map (fun r => r.id)).contains (effectiveId o g))) &&
              safeOps (applyOp s (StoreOp.add o g)) ops) = true := hsafe
          rw [Bool.and_eq_true] at hsafe2
          have hstep := applyOp_preserves s (StoreOp.add o g) a b c d hsafe2.1
          exact ih _ hstep.1 hstep.2.1 hstep.2.2.1 hstep.2.2.2 hsafe2.2
      | remove i =>
          have hsafe2 : (true && safeOps (applyOp s (StoreOp.remove i)) ops) = true := hsafe
          rw [Bool.and_eq_true] at hsafe2
          have hstep := applyOp_preserves s (StoreOp.remove i) a b c d hsafe2.1
          exact ih _ hstep.1 hstep.2.1 hstep.2.2.1 hstep.2.2.2 hsafe2.2
      | update i d2 =>
          have hsafe2 : (true && safeOps (applyOp s (StoreOp.update i d2)) ops) = true := hsafe
          rw [Bool.and_eq_true] at hsafe2
          have hstep := applyOp_preserves s (StoreOp.update i d2) a b c d hsafe2.1
          exact ih _ hstep.1 hstep.2.1 hstep.2.2.1 hstep.2.2.2 hsafe2.2

/-- Claim C2 (counterexample): adding two overlays with the same
caller-supplied id `"a"` leaves the projection with TWO entries of that id:
the Map-keyed walk of `syncWithProject` consumes the key on the first store
record that matches and then pushes the second record as "new", so "exactly
one projection entry per store id" fails on id-duplicating call sequences
(the store itself also holds two records with that id, since `addOverlay`
performs no duplicate check, src/base.js:64-76). -/
theorem duplicate_add_projection_cex :
    ((runOps initialStoreState
        [StoreOp.add { id := "a" } "g1", StoreOp.add { id := "a" } "g2"]).projectOverlays.filter
      (fun p => p.id == "a")).length = 2 ∧
    ((runOps initialStoreState
        [StoreOp.add { id := "a" } "g1", StoreOp.add { id := "a" } "g2"]).overlays.map
      (fun o => o.id)) = ["a", "a"] := by
  exact ⟨rfl, rfl⟩

/-- Claim C2 (amended): after any id-safe sequence of add/update/remove calls
starting from the empty store — every `add` brings an id not already present,
which the collision-resistant generator guarantees and only a caller-supplied
duplicate id violates — the derived projection contains exactly one entry per
store id, with `start`/`duration` equal to the store record's
`startTime`/`duration`; moreover every sync pass is the id-based diff of
src/base.js:131-174: existing ids are updated in place (a map over the old
projection array), new store ids are appended, and ids no longer present are
filtered out — never a clear-and-rebuild. -/
theorem store_projection_consistency (ops : List StoreOp)
    (hsafe : safeOps initialStoreState ops = true) :
    (((runOps initialStoreState ops).overlays.map (fun o => o.id)).Nodup ∧
     ((runOps initialStoreState ops).projectOverlays.map (fun p => p.id)).Nodup ∧
     (∀ idv, idv ∈ (runOps initialStoreState ops).overlays.map (fun o => o.id) →
        ((runOps initialStoreState ops).projectOverlays.filter
          (fun p => p.id == idv)).length = 1) ∧
     (∀ p ∈ (runOps initialStoreState ops).projectOverlays,
        ∃ o ∈ (runOps initialStoreState ops).overlays,
          o.id = p.id ∧ p.start = o.startTime ∧ p.duration = o.duration)) ∧
    (∀ t : OverlayStoreState,
      (t.overlays.map (fun o => o.id)).Nodup →
      (t.projectOverlays.map (fun p => p.id)).Nodup →
      (syncWithProject t).projectOverlays =
        (t.projectOverlays.map (syncUpdate t.overlays)).filter
          (fun p => (t.overlays.map (fun o => o.id)).contains p.id)
        ++ (t.overlays.filter
            (fun o => !((t.projectOverlays.map (fun p => p.id)).contains o.id))).map
          overlayData) := by
  refine ⟨?_, fun t h1 h2 => syncWithProject_proj_eq t h1 h2⟩
  refine runOps_invariant ops initialStoreState List.nodup_nil List.nodup_nil ?_ ?_ hsafe
  · intro idv hid
    exact absurd hid (List.not_mem_nil idv)
  · intro p hp
    exact absurd hp (List.not_mem_nil p)

theorem store_projection_consistency_witness :
    safeOps initialStoreState
      [StoreOp.add { id := "a" } "g1", StoreOp.add { id := "" } "g2",
       StoreOp.update "a" { startTime := some 3 }, StoreOp.remove "g2"] = true ∧
    "a" ∈ (runOps initialStoreState
      [StoreOp.add { id := "a" } "g1", StoreOp.add { id := "" } "g2",
       StoreOp.update "a" { startTime := some 3 }, StoreOp.remove "g2"]).overlays.map
      (fun o => o.id) ∧
    ((runOps initialStoreState
      [StoreOp.add { id := "a" } "g1", StoreOp.add { id := "" } "g2",
       StoreOp.update "a" { startTime := some 3 }, StoreOp.remove "g2"]).projectOverlays.filter
      (fun p => p.id == "a")).length = 1 := by
  refine ⟨rfl, ?_, ?_⟩
  · exact List.mem_cons_self "a" []
  · exact ((store_projection_consistency
      [StoreOp.add { id := "a" } "g1", StoreOp.add { id := "" } "g2",
       StoreOp.update "a" { startTime := some 3 }, StoreOp.remove "g2"] rfl).1.2.2.1 "a"
      (List.mem_cons_self "a" []))

theorem formatTime_fin_eval (q : ℚ) (m s x : ℤ)
    (hm : ⌊q / 60⌋ = m)
    (hrt : JSNum.ratTrunc (q / 60) = m)
    (hs : ⌊q - 60 * (m : ℚ)⌋ = s)
    (hx : ⌊(q - 60 * (m : ℚ) - (s : ℚ)) * 1000⌋ = x) :
    formatTime (JSNum.fin q) false =
      jsPadStart (jsIntRepr m) 2 '0' ++ ":" ++ jsPadStart (jsIntRepr s) 2 '0' ∧
    formatTime (JSNum.fin q) true =
      jsPadStart (jsIntRepr m) 2 '0' ++ ":" ++ jsPadStart (jsIntRepr s) 2 '0' ++ "." ++
        jsPadStart (jsIntRepr x) 3 '0' := by
  constructor
  · rw [formatTime]
    dsimp only
    simp only [JSNum.divC, JSNum.modC, JSNum.jsFloor, JSNum.jsSub, JSNum.mulC,
      JSNum.toJSString, hrt, Int.floor_intCast, hm, hs, Bool.false_eq_true, if_false]
  · rw [formatTime]
    dsimp only
    simp only [JSNum.divC, JSNum.modC, JSNum.jsFloor, JSNum.jsSub, JSNum.mulC,
      JSNum.toJSString, hrt, Int.floor_intCast, hm, hs, hx, if_true]

/-- Claim C9 (counterexample): the top-level `formatTime`
(src/base.js:6938-6949) has no non-finite guard at all — on `NaN` (or an
`undefined` that coerced to `NaN` in its arithmetic) it returns
`"NaN:NaN.NaN"`/`"NaN:NaN"`, not the claimed `"0:00"` fallback, and the
result matches neither `MM:SS` nor `MM:SS.mmm`; on `Infinity` it returns
`"Infinity:NaN"`.  The `"0:00"` fallback lives only in
`OverlayUtils.formatTime` (src/base.js:376-381). -/
theorem formatTime_nonfinite_cex :
    formatTime JSNum.nan true = "NaN:NaN.NaN" ∧
    formatTime JSNum.nan false = "NaN:NaN" ∧
    isMMSS (formatTime JSNum.nan false) = false ∧
    isMMSSmmm (formatTime JSNum.nan true) = false ∧
    formatTime JSNum.posInf false = "Infinity:NaN" ∧
    OverlayUtils.formatTime JSNum.nan = "0:00" := by
  exact ⟨rfl, rfl, rfl, rfl, rfl, rfl⟩

/-- Claim C9 (amended): the top-level `formatTime` never throws but applies
no non-finite fallback (see the counterexample); on the finite inputs `0`,
`59.999` and `60` it returns `MM:SS` (resp. `MM:SS.mmm`) shaped strings,
zero-padded; the fixed `"0:00"` (resp. `"0:00.000"`) fallback for
non-finite or undefined input is implemented by `OverlayUtils.formatTime`
and `OverlayUtils.formatTimeWithMilliseconds` (src/base.js:376-389), whose
guard `!seconds || !isFinite(seconds)` catches `NaN`, `±Infinity` and
`undefined`. -/
theorem formatTime_total_fallback :
    (formatTime (JSNum.fin 0) false = "00:00" ∧
     formatTime (JSNum.fin 0) true = "00:00.000") ∧
    (formatTime (JSNum.fin (59999/1000)) false = "00:59" ∧
     formatTime (JSNum.fin (59999/1000)) true = "00:59.999") ∧
    (formatTime (JSNum.fin 60) false = "01:00" ∧
     formatTime (JSNum.fin 60) true = "01:00.000") ∧
    (isMMSS (formatTime (JSNum.fin 0) false) = true ∧
     isMMSSmmm (formatTime (JSNum.fin (59999/1000)) true) = true ∧
     isMMSS (formatTime (JSNum.fin 60) false) = true ∧
     isMMSSmmm (formatTime (JSNum.fin 60) true) = true) ∧
    (OverlayUtils.formatTime JSNum.nan = "0:00" ∧
     OverlayUtils.formatTime JSNum.posInf = "0:00" ∧
     OverlayUtils.formatTime JSNum.negInf = "0:00" ∧
     OverlayUtils.formatTimeWithMilliseconds JSNum.nan = "0:00.000" ∧
     OverlayUtils.formatTimeWithMilliseconds JSNum.posInf = "0:00.000") := by
  have hm0 : ⌊(0:ℚ) / 60⌋ = 0 := by norm_num
  have hrt0 : JSNum.ratTrunc ((0:ℚ) / 60) = 0 := by
    rw [JSNum.ratTrunc, if_pos] <;> norm_num
  have h0 := formatTime_fin_eval 0 0 0 0 hm0 hrt0 (by norm_num) (by norm_num)
  have hm59 : ⌊(59999/1000:ℚ) / 60⌋ = 0 := by
    rw [Int.floor_eq_iff] <;> norm_num
  have hrt59 : JSNum.ratTrunc ((59999/1000:ℚ) / 60) = 0 := by
    rw [JSNum.ratTrunc, if_pos]
    · exact hm59
    · norm_num
  have hs59 : ⌊(59999/1000:ℚ) - 60 * ((0:ℤ):ℚ)⌋ = 59 := by
    rw [Int.floor_eq_iff] <;> norm_num
  have hx59 : ⌊((59999/1000:ℚ) - 60 * ((0:ℤ):ℚ) - ((59:ℤ):ℚ)) * 1000⌋ = 999 := by
    rw [Int.floor_eq_iff] <;> norm_num
  have h59 := formatTime_fin_eval (59999/1000) 0 59 999 hm59 hrt59 hs59 hx59
  have hm60 : ⌊(60:ℚ) / 60⌋ = 1 := by norm_num
  have hrt60 : JSNum.ratTrunc ((60:ℚ) / 60) = 1 := by
    rw [JSNum.ratTrunc, if_pos]
    · exact hm60
    · norm_num
  have hs60 : ⌊(60:ℚ) - 60 * ((1:ℤ):ℚ)⌋ = 0 := by norm_num
  have hx60 : ⌊((60:ℚ) - 60 * ((1:ℤ):ℚ) - ((0:ℤ):ℚ)) * 1000⌋ = 0 := by norm_num
  have h60 := formatTime_fin_eval 60 1 0 0 hm60 hrt60 hs60 hx60
  refine ⟨⟨h0.1.trans rfl, h0.2.trans rfl⟩,
          ⟨h59.1.trans rfl, h59.2.trans rfl⟩,
          ⟨h60.1.trans rfl, h60.2.trans rfl⟩,
          ⟨?_, ?_, ?_, ?_⟩,
          ⟨rfl, rfl, rfl, rfl, rfl⟩⟩
  · rw [h0.1]
    rfl
  · rw [h59.2]
    rfl
  · rw [h60.1]
    rfl
  · rw [h60.2]
    rfl
